import Mathlib

/-! # Appointment watcher (`src/index.js`): shallow embedding and verified properties

The program is a single Node.js module. Its own functions (`loadAppointment`,
`saveAppointment`, `sendMessage`, `sendEmailNotification`, `sendPushNotification`,
`parseAppointmentDate`, `extractAppointments`, `checkAppointments`, and `initializeBot`,
`reconnectBot`, `setupCommandHandlers` and the `/set` handler of `setupBot`) are transcribed
below as Lean functions over an explicit `State` record.

Everything the module imports is kept outside the embedding:

* the date library (`moment-timezone`) is a record `MomentLib` of the operations the program
  calls; theorems quantify over every such record and name the library law they use;
* the outside world (the HTTP endpoint, the chat transport, the mail transport, the push API,
  the file system) is a record `Env` of outcomes, and every call made to it is recorded in a
  trace of `Effect`s;
* a promise that rejects / a statement that throws is the `error` case of `Except JsError`.

One call of an `async` function is modelled as running to completion: interleavings with other
event handlers at `await` points are outside this model.
-/

namespace Watcher

/-! ## JavaScript values -/

/-- A thrown value. Everything this program catches is an `Error` instance (the chat library,
the mail library and the HTTP client reject with `Error` subclasses), so `message` is a string. -/
structure JsError where
  message : String
  deriving DecidableEq, Repr

/-- A field read out of a parsed JSON record or of a plain object: only truthiness and, for
strings, the text are ever inspected. `compound` stands for any array or object. -/
inductive JVal
  | undefined
  | null
  | bool (b : Bool)
  | num (n : Int)
  | str (s : String)
  | compound
  deriving DecidableEq, Repr

/-- JavaScript truthiness, as used by `!x` and `x || y`. -/
def JVal.truthy : JVal → Bool
  | .undefined => false
  | .null => false
  | .bool b => b
  | .num n => decide (n ≠ 0)
  | .str s => decide (s ≠ "")
  | .compound => true

/-- The JavaScript expression `a || b`. -/
def JVal.or (a b : JVal) : JVal := if a.truthy then a else b

/-! ## The date library -/

/-- The operations of `moment-timezone` (and of the built-in `Date`) that the program calls.
`Date.prototype.toISOString` and the method of the same name of a moment print the same
text, so `toISOString` stands for both. An instant is a number of
milliseconds since the epoch; `none` is an invalid date (`valueOf()` is `NaN`). A zone argument
is passed as the program passes it (a string in every call the program makes itself, whatever
the persisted record holds in `loadAppointment`). -/
structure MomentLib where
  /-- The call `moment.tz(text, formats, zone)`: parse `text` under the listed formats. -/
  parse : List String → String → JVal → Option Int
  /-- The call `moment.tz(value, zone)` without a format; it may throw (on a zone argument
  that is not a string, for one). -/
  parseAuto : JVal → JVal → Except JsError (Option Int)
  /-- The built-in constructor `new Date(value)`, as the instant of the date it builds. -/
  newDate : JVal → Option Int
  /-- The method `toISOString()` of a valid moment. -/
  toISOString : Int → String
  /-- The instant `m.startOf('day')` moves a valid moment to, in the moment's zone. -/
  startOfDay : JVal → Int → Int
  /-- The calendar day (a day number) on which an instant falls in a zone. -/
  dayOf : JVal → Int → Int
  /-- The method `format(pattern)`; the last argument is the instant (or invalid). -/
  format : String → JVal → Option Int → String

/-- What "start of the calendar day" means for one zone: calendar days follow the order of
instants, `startOfDay` stays on the same day, never moves forward, and depends on the day only. -/
structure MomentLib.DayLaws (lib : MomentLib) (z : JVal) : Prop where
  dayOf_mono : ∀ a b : Int, a ≤ b → lib.dayOf z a ≤ lib.dayOf z b
  dayOf_startOfDay : ∀ a : Int, lib.dayOf z (lib.startOfDay z a) = lib.dayOf z a
  startOfDay_le : ∀ a : Int, lib.startOfDay z a ≤ a
  startOfDay_congr : ∀ a b : Int, lib.dayOf z a = lib.dayOf z b →
    lib.startOfDay z a = lib.startOfDay z b

/-- A moment object: its instant (`none` when invalid) and the zone it was created in. -/
structure Moment where
  ms : Option Int
  zone : JVal
  deriving DecidableEq, Repr

/-- The method `isValid()`. -/
def Moment.isValid (m : Moment) : Bool := m.ms.isSome

/-- The method `clone()`: a fresh object with the same instant and zone. -/
def Moment.clone (m : Moment) : Moment := { ms := m.ms, zone := m.zone }

/-- The method `startOf('day')`, as the value the receiver holds afterwards; an invalid
moment is returned as it is. -/
def Moment.startOfDay (lib : MomentLib) (m : Moment) : Moment :=
  { m with ms := m.ms.map (lib.startOfDay m.zone) }

/-- The method `a.isBefore(b)`: false when either side is invalid, otherwise the comparison
of the two instants. -/
def Moment.isBefore (a b : Moment) : Bool :=
  match a.ms, b.ms with
  | some x, some y => decide (x < y)
  | _, _ => false

/-- The method `format(pattern)`. -/
def Moment.format (lib : MomentLib) (m : Moment) (pattern : String) : String :=
  lib.format pattern m.zone m.ms

/-! ## Configuration and data model -/

/-- The part of `CONFIG` and of the startup flags the embedded functions read.
`enableEmail` also stands for `transporter`, which is created exactly when `enableEmail`
holds. -/
structure Config where
  CHAT_ID : String
  TIMEZONE : String
  enableEmail : Bool
  enablePushbullet : Bool
  deriving DecidableEq, Repr

/-- A candidate slot, the object pushed by `extractAppointments`. -/
structure Candidate where
  fullDate : Moment
  time : String
  originalString : String
  deriving DecidableEq, Repr

/-- The reference appointment, the object built by the `/set` handler or by
`loadAppointment`. `savedAt` is a `Date` (its instant, `none` inside when invalid). -/
structure Appointment where
  fullDate : Moment
  time : JVal
  originalString : JVal
  savedAt : Option (Option Int)
  setAt : Option String
  timezone : JVal
  deriving DecidableEq, Repr

/-- The global `state` object. `bot` is the identity of the transport instance.
`isBotInitialized` is the property line 583 creates (absent until then). -/
structure State where
  currentAppointment : Option Appointment
  isRunning : Bool
  isCleaningUp : Bool
  bot : Option Nat
  botInitialized : Bool
  isBotInitializing : Bool
  isBotInitialized : Option Bool
  deriving DecidableEq, Repr

/-! ## Document parser -/

/-- The class `\s` of ECMAScript regular expressions, which is also the set of characters
`String.prototype.trim` strips. -/
def isJsSpace (c : Char) : Bool :=
  let n := c.toNat
  n == 0x09 || n == 0x0A || n == 0x0B || n == 0x0C || n == 0x0D || n == 0x20 || n == 0xA0 ||
  n == 0x1680 || (0x2000 ≤ n && n ≤ 0x200A) || n == 0x2028 || n == 0x2029 || n == 0x202F ||
  n == 0x205F || n == 0x3000 || n == 0xFEFF

/-- The method `trim()`. -/
def jsTrim (s : List Char) : List Char :=
  ((s.dropWhile isJsSpace).reverse.dropWhile isJsSpace).reverse

/-- Matching a literal at the head of the input: the remaining input, if it matches. -/
def matchLit : List Char → List Char → List (List Char)
  | [], s => [s]
  | _ :: _, [] => []
  | p :: ps, c :: cs => if p = c then matchLit ps cs else []

/-- Every way to read a run of characters of class `p` off the head of the input, as
(run, remaining input), shortest run first. -/
def runs (p : Char → Bool) : List Char → List (List Char × List Char)
  | [] => [([], [])]
  | c :: cs =>
    ([], c :: cs) :: (if p c then (runs p cs).map (fun x => (c :: x.1, x.2)) else [])

/-- The quantifier `*` (greedy) on a character class: longest run tried first. -/
def starGreedy (p : Char → Bool) (s : List Char) : List (List Char × List Char) :=
  (runs p s).reverse

/-- The quantifier `+` (greedy) on a character class. -/
def plusGreedy (p : Char → Bool) (s : List Char) : List (List Char × List Char) :=
  ((runs p s).filter (fun x => !x.1.isEmpty)).reverse

/-- The quantifier `+?` (lazy) on a character class: shortest run tried first. -/
def plusLazy (p : Char → Bool) (s : List Char) : List (List Char × List Char) :=
  (runs p s).filter (fun x => !x.1.isEmpty)

/-- The literal `<label for="scheduler_`. -/
def labelOpen : List Char := "<label for=\"scheduler_".data

/-- The literal `">`. -/
def labelMid : List Char := "\">".data

/-- The literal `</label>`. -/
def labelClose : List Char := "</label>".data

/-- Every match of `/<label for="scheduler_([^"]+)">\s*([^<]+?)\s*<\/label>/` anchored at the
head of the input, in the order a backtracking matcher tries them, as
(group 1, group 2, input after the match). -/
def matchHere (s : List Char) : List (List Char × List Char × List Char) :=
  (matchLit labelOpen s).flatMap fun r0 =>
  (plusGreedy (fun c => c != Char.ofNat 34) r0).flatMap fun g1 =>
  (matchLit labelMid g1.2).flatMap fun r2 =>
  (starGreedy isJsSpace r2).flatMap fun w1 =>
  (plusLazy (fun c => c != '<') w1.2).flatMap fun g2 =>
  (starGreedy isJsSpace g2.2).flatMap fun w2 =>
  (matchLit labelClose w2.2).map fun r6 => (g1.1, g2.1, r6)

/-- One call of `dateTimeRegex.exec(html)` from the current `lastIndex`: the first start
position at which the expression matches, with the first match there. -/
def regexExec : List Char → Option (List Char × List Char × List Char)
  | [] => (matchHere []).head?
  | c :: cs =>
    match (matchHere (c :: cs)).head? with
    | some m => some m
    | none => regexExec cs

/-- The function `parseAppointmentDate`. -/
def parseAppointmentDate (lib : MomentLib) (cfg : Config) (dateString : String) : Moment :=
  { ms := lib.parse ["M/D/YYYY h:mm:ss A"] dateString (.str cfg.TIMEZONE),
    zone := .str cfg.TIMEZONE }

/-- The `while` loop of `extractAppointments`, run for at most `fuel` iterations on the
input that follows `lastIndex`. -/
def extractLoop (lib : MomentLib) (cfg : Config) : Nat → List Char → List Candidate
  | 0, _ => []
  | fuel + 1, s =>
    match regexExec s with
    | none => []
    | some (fullDateAttribute, timeText, rest) =>
      { fullDate := parseAppointmentDate lib cfg (String.mk fullDateAttribute),
        time := String.mk (jsTrim timeText),
        originalString := String.mk fullDateAttribute } :: extractLoop lib cfg fuel rest

/-- The function `extractAppointments`. Every iteration consumes at least one character, so
`html.length + 1` iterations exhaust the loop (see `extractLoop_fuel`). -/
def extractAppointments (lib : MomentLib) (cfg : Config) (html : String) : List Candidate :=
  extractLoop lib cfg (html.length + 1) html.data

/-! ## Effects -/

/-- A call that leaves the process. -/
inductive Effect
  /-- The `axios.post` to the appointment system. -/
  | httpPost
  /-- The call `bot.sendMessage(CONFIG.CHAT_ID, text)` on transport instance `bot`. -/
  | chatSend (bot : Nat) (text : String)
  /-- The call `transporter.sendMail` with this subject and body. -/
  | mailSend (subject text : String)
  /-- The `axios.post` to the push API with this title and body. -/
  | pushSend (title body : String)
  /-- The call `fs.promises.mkdir` on the directory of the appointment file. -/
  | fileMkdir
  /-- The call `fs.promises.writeFile` on the appointment file, with the record written. -/
  | fileWrite (data : List (String × JVal))
  /-- The call `fs.promises.readFile` on the appointment file. -/
  | fileRead
  deriving DecidableEq, Repr

/-- The property `response.data` as axios hands it over: a body text that is valid JSON
arrives decoded, any other text (the empty text too) arrives as it is. -/
inductive ResponseData
  /-- A string: a body that is not JSON, or the string a JSON string literal decodes to. -/
  | text (s : String)
  /-- The body `null`. -/
  | null
  /-- The body `true` or `false`. -/
  | bool (b : Bool)
  /-- A body that is a JSON number (its integer part stands for it: a number with a
  fraction is not zero and its text holds no markup either). -/
  | number (n : Int)
  /-- A body that is a JSON array or object, with the text `String(value)` gives. -/
  | compound (shown : String)
  deriving DecidableEq, Repr

/-- JavaScript truthiness of `response.data`, as tested by `!response.data` (line 429). -/
def ResponseData.truthy : ResponseData → Bool
  | .text s => decide (s ≠ "")
  | .null => false
  | .bool b => b
  | .number n => decide (n ≠ 0)
  | .compound _ => true

/-- The string `dateTimeRegex.exec(html)` matches against: `exec` converts its argument to
a string (line 333). -/
def ResponseData.toText : ResponseData → String
  | .text s => s
  | .null => "null"
  | .bool true => "true"
  | .bool false => "false"
  | .number n => toString n
  | .compound shown => shown

/-- What `axios.post` to the appointment system settles with. With `validateStatus: null`
and `maxRedirects: 0` every received response fulfils the promise, whatever its status. -/
inductive FetchOutcome
  /-- A response was received; `data` is `response.data`. -/
  | response (status : Nat) (statusText : String) (data : ResponseData)
  /-- Rejected with a cancellation (`axios.isCancel`): the abort signal fired. -/
  | cancelled
  /-- Rejected with any other error, of which the handler reads `code`, `response`
  (status and status text), `request` (present or not) and `message`. -/
  | failed (code : Option String) (response : Option (Nat × String)) (request : Bool)
      (message : String)
  deriving DecidableEq, Repr

/-- The outside world during one call: what each external call settles with (`none` is
success, `some e` a rejection with `e`). -/
structure Env where
  httpPost : FetchOutcome
  botSendMessage : Nat → String → Option JsError
  sendMail : String → String → Option JsError
  pushPost : String → String → Option JsError
  mkdir : Option JsError
  writeFile : Option JsError
  readFile : Option JsError
  /-- The clock: the instant `new Date()` reads. -/
  now : Int

/-- A computation that returns or throws, together with the external calls it made. -/
structure Run (α : Type) where
  result : Except JsError α
  trace : List Effect

/-- Returning a value without any external call. -/
def Run.ret {α : Type} (a : α) : Run α := { result := .ok a, trace := [] }

/-- The statement `throw e`. -/
def Run.throw {α : Type} (e : JsError) : Run α := { result := .error e, trace := [] }

/-- Sequencing: the continuation runs only if the first part did not throw. -/
def Run.andThen {α β : Type} (x : Run α) (f : α → Run β) : Run β :=
  match x.result with
  | .ok a => { result := (f a).result, trace := x.trace ++ (f a).trace }
  | .error e => { result := .error e, trace := x.trace }

/-- The statement `try { x } catch (e) { h e }`. -/
def Run.tryCatch {α : Type} (x : Run α) (h : JsError → Run α) : Run α :=
  match x.result with
  | .ok a => { result := .ok a, trace := x.trace }
  | .error e => { result := (h e).result, trace := x.trace ++ (h e).trace }

/-- Awaiting one external call. -/
def Run.call (e : Effect) (settled : Option JsError) : Run Unit :=
  { result := match settled with
      | none => .ok ()
      | some err => .error err,
    trace := [e] }

instance : Monad Run where
  pure := Run.ret
  bind := Run.andThen

/-! ## Notification channels -/

/-- The function `sendMessage` (chat channel). -/
def sendMessage (cfg : Config) (env : Env) (st : State) (text : String) : Run Unit :=
  match st.bot with
  | none => pure ()
  | some bot =>
    if !st.botInitialized || cfg.CHAT_ID = "" then pure ()
    else
      (Run.call (.chatSend bot text) (env.botSendMessage bot text)).tryCatch fun _error =>
        pure ()

/-- The function `sendEmailNotification`. -/
def sendEmailNotification (cfg : Config) (env : Env) (subject text : String) : Run Unit :=
  if !cfg.enableEmail then pure ()
  else
    (Run.call (.mailSend subject text) (env.sendMail subject text)).tryCatch fun _error =>
      pure ()

/-- The function `sendPushNotification`. -/
def sendPushNotification (cfg : Config) (env : Env) (title body : String) : Run Unit :=
  if !cfg.enablePushbullet then pure ()
  else
    (Run.call (.pushSend title body) (env.pushPost title body)).tryCatch fun _error =>
      pure ()

/-! ## Appointment store -/

/-- What `JSON.parse` makes of a text that is valid JSON: a record with its fields in order,
or any other value (`null`, a number, a string, a boolean, an array). -/
inductive JsonDoc
  | atom (v : JVal)
  | record (fields : List (String × JVal))
  deriving DecidableEq, Repr

/-- The text of the appointment file, represented by what `JSON.parse` makes of it;
`malformed` is a text on which `JSON.parse` throws. `JSON.stringify` followed by `JSON.parse`
gives back a record of strings and nulls field by field, which is how a written record is
represented here. -/
inductive FileContent
  | json (doc : JsonDoc)
  | malformed
  deriving DecidableEq, Repr

/-- The appointment file `APPOINTMENT_FILE`: absent, or present with some content. -/
structure Disk where
  file : Option FileContent
  deriving DecidableEq, Repr

/-- Reading a property of a parsed record: `undefined` when the key is absent. -/
def getField (fields : List (String × JVal)) (key : String) : JVal :=
  (fields.lookup key).getD .undefined

/-- The record `JSON.stringify` writes: properties whose value is `undefined` are left out. -/
def stringifyRecord (fields : List (String × JVal)) : List (String × JVal) :=
  fields.filter fun kv => kv.2 != JVal.undefined

/-- The function `loadAppointment`. Its whole body is inside a `try` whose `catch` returns
`null`. -/
def loadAppointment (lib : MomentLib) (cfg : Config) (env : Env) (disk : Disk) :
    Run (Option Appointment) :=
  match disk.file with
  | none => pure none
  | some content =>
    ((Run.call .fileRead env.readFile).andThen fun _ =>
      match content with
      | .malformed => Run.throw ⟨"Unexpected token in JSON"⟩
      | .json (.atom _) => pure none
      | .json (.record data) =>
        if !(getField data "fullDate").truthy then pure none
        else
          let zone := (getField data "timezone").or (.str cfg.TIMEZONE)
          match lib.parseAuto (getField data "fullDate") zone with
          | .error e => Run.throw e
          | .ok ms =>
            let appointment : Appointment :=
              { fullDate := { ms := ms, zone := zone },
                time := (getField data "time").or (.str "00:00"),
                originalString := (getField data "originalString").or (getField data "fullDate"),
                savedAt := some (if (getField data "savedAt").truthy
                  then lib.newDate (getField data "savedAt") else some env.now),
                setAt := none,
                timezone := zone }
            if !appointment.fullDate.isValid then pure none
            else pure (some appointment)).tryCatch fun _error => pure none

/-- The function `saveAppointment`, with the appointment file before the call; it returns the
file after the call as well. A write that fails is taken to leave the file as it was. The
method `toISOString()` of an invalid moment returns `null`. -/
def saveAppointment (lib : MomentLib) (cfg : Config) (env : Env) (disk : Disk)
    (appointment : Option Appointment) : Run Bool × Disk :=
  match appointment with
  | none => (pure false, disk)
  | some appointment =>
    let data : List (String × JVal) :=
      [ ("fullDate", match appointment.fullDate.ms with
          | some t => .str (lib.toISOString t)
          | none => .null),
        ("time", appointment.time),
        ("originalString", appointment.originalString),
        ("savedAt", .str (lib.toISOString env.now)),
        ("timezone", .str cfg.TIMEZONE) ]
    let attempt : Run Bool :=
      ((Run.call .fileMkdir env.mkdir).andThen fun _ =>
        (Run.call (.fileWrite (stringifyRecord data)) env.writeFile).andThen fun _ =>
        pure true).tryCatch fun _error => pure false
    (attempt,
      match attempt.result with
      | .ok true => { file := some (.json (.record (stringifyRecord data))) }
      | _ => disk)

/-! ## Check orchestrator -/

/-- The message of the error the inner `catch` of `checkAppointments` rethrows (lines
433 to 460), from what it reads of the caught value. -/
def requestErrorMessage (isCancel : Bool) (code : Option String)
    (response : Option (Nat × String)) (request : Bool) (message : String) : String :=
  if isCancel then "Request cancelled due to timeout or abort signal."
  else if code = some "ECONNREFUSED" then
    "Error making request: " ++ "Connection refused - the server might be down"
  else
    match response with
    | some (status, statusText) =>
      "Error making request: " ++
        ("Server responded with status " ++ toString status ++ ": " ++ statusText)
    | none =>
      if request then "Error making request: " ++ "No response received from server"
      else "Error making request: " ++ message

/-- Lines 368 to 461 of `checkAppointments`: the request and its inner `try`/`catch`. A
falsy `response.data` (the empty text, and the decoded bodies `null`, `false` and `0`)
throws inside the inner `try`, so it is rethrown by the same `catch` as a transport failure
is. -/
def fetchResponse (env : Env) : Run ResponseData :=
  { trace := [.httpPost],
    result :=
      match env.httpPost with
      | .response _status _statusText data =>
        if !data.truthy then
          .error ⟨requestErrorMessage false none none false "Empty response from server"⟩
        else .ok data
      | .cancelled => .error ⟨requestErrorMessage true none none false ""⟩
      | .failed code response request message =>
        .error ⟨requestErrorMessage false code response request message⟩ }

/-- The comparator `(a, b) => a.fullDate.valueOf() - b.fullDate.valueOf()`; a `NaN` result
is read as `+0` by `Array.prototype.sort`. -/
def compareByDate (a b : Candidate) : Int :=
  match a.fullDate.ms, b.fullDate.ms with
  | some x, some y => x - y
  | _, _ => 0

/-- Insertion of `a` in front of the first element it does not come after. -/
def insertSorted (cmp : Candidate → Candidate → Int) (a : Candidate) :
    List Candidate → List Candidate
  | [] => [a]
  | b :: l => if cmp a b ≤ 0 then a :: b :: l else b :: insertSorted cmp a l

/-- The method `Array.prototype.sort(cmp)`, which is stable: elements that compare equal keep
their order. (With a comparator that is not a consistent order, which happens here only when
some date is invalid, the order is left to the engine.) -/
def jsSort (cmp : Candidate → Candidate → Int) : List Candidate → List Candidate
  | [] => []
  | a :: l => insertSorted cmp a (jsSort cmp l)

/-- The chat message of the `EarlierFound` branch (lines 483 to 486). -/
def foundMessage (lib : MomentLib) (earliest : Candidate) : String :=
  "✅ *Found earlier appointment!*\n" ++
  ("📅 *Date:* " ++ earliest.fullDate.format lib "dddd, MMMM Do, YYYY" ++ "\n") ++
  ("🕒 *Time:* " ++ earliest.time ++ "\n") ++
  "🔗 [Book Now](https://appointment.bmeia.gv.at/)"

/-- The push body of the `EarlierFound` branch (line 492). -/
def foundPushBody (lib : MomentLib) (earliest : Candidate) : String :=
  "New appointment available on " ++ earliest.fullDate.format lib "YYYY-MM-DD" ++ " at " ++
    earliest.time

/-- The chat message of the `NoEarlierFound` branch (lines 500 to 505). -/
def infoMessage (lib : MomentLib) (ref : Appointment) (earliest : Candidate) : String :=
  ("ℹ️ No appointments found earlier than your set date of *" ++
    ref.fullDate.format lib "YYYY-MM-DD" ++ "*.\n\n") ++
  ("The earliest appointment currently available on the website is on *" ++
    earliest.fullDate.format lib "dddd, MMMM Do, YYYY" ++ "* at *" ++ earliest.time ++ "*.")

/-- The chat message of the outer `catch` (line 519). -/
def diagnosticMessage : String :=
  "❌ An error occurred while checking for appointments. Please check the logs for details."

/-- Lines 465 to 511 of `checkAppointments`: select the earliest of the parsed candidates,
compare it with the reference, notify. `ref` is `state.currentAppointment`. -/
def decideAndNotify (lib : MomentLib) (cfg : Config) (env : Env) (st : State)
    (ref : Appointment) (appointments : List Candidate) : Run Bool :=
  if appointments.length = 0 then pure false
  else
    match jsSort compareByDate appointments with
    | [] => Run.throw ⟨"Cannot read properties of undefined (reading fullDate)"⟩
    | earliestFoundAppointment :: _ =>
      let userSetDate := ref.fullDate.clone.startOfDay lib
      let foundDate := earliestFoundAppointment.fullDate.clone.startOfDay lib
      if foundDate.isBefore userSetDate then
        (sendMessage cfg env st (foundMessage lib earliestFoundAppointment)).andThen fun _ =>
        (sendEmailNotification cfg env "Earlier Appointment Found!"
          (foundMessage lib earliestFoundAppointment)).andThen fun _ =>
        (sendPushNotification cfg env "Earlier Appointment Found!"
          (foundPushBody lib earliestFoundAppointment)).andThen fun _ =>
        pure true
      else
        (sendMessage cfg env st (infoMessage lib ref earliestFoundAppointment)).andThen fun _ =>
        pure false

/-- Lines 463 to 511 of `checkAppointments`: parse the document, then decide and notify;
`html` is the text the regular expression matches against. -/
def compareAndNotify (lib : MomentLib) (cfg : Config) (env : Env) (st : State)
    (ref : Appointment) (html : String) : Run Bool :=
  decideAndNotify lib cfg env st ref (extractAppointments lib cfg html)

/-- The outer `catch` of `checkAppointments` (lines 513 to 525). -/
def reportFailure (cfg : Config) (env : Env) (st : State) : Run Bool :=
  (match st.bot with
    | none => pure ()
    | some bot =>
      if st.botInitialized && cfg.CHAT_ID ≠ "" then
        (Run.call (.chatSend bot diagnosticMessage)
          (env.botSendMessage bot diagnosticMessage)).tryCatch fun _botError => pure ()
      else pure ()).andThen fun _ =>
  pure false

/-- One settled call of `checkAppointments`: how the promise settles, the `state` object
afterwards, and the external calls made. -/
structure Outcome where
  result : Except JsError Bool
  state : State
  trace : List Effect

/-- The function `checkAppointments`. -/
def checkAppointments (lib : MomentLib) (cfg : Config) (env : Env) (st : State) : Outcome :=
  if st.isRunning then { result := .ok false, state := st, trace := [] }
  else
    match st.currentAppointment with
    | none => { result := .ok false, state := st, trace := [] }
    | some ref =>
      let running : State := { st with isRunning := true }
      let body : Run Bool :=
        ((fetchResponse env).andThen fun data =>
          compareAndNotify lib cfg env running ref data.toText).tryCatch fun _error =>
          reportFailure cfg env running
      { result := body.result,
        state := { running with isRunning := false },
        trace := body.trace }

/-! ## A reference date library

A concrete `MomentLib` for zones without daylight saving time, used to evaluate the embedded
functions on concrete inputs. -/

/-- Days from 1970-01-01 to a civil date of the proleptic Gregorian calendar. -/
def daysFromCivil (y m d : Int) : Int :=
  let y1 := if m ≤ 2 then y - 1 else y
  let era := y1 / 400
  let yoe := y1 - era * 400
  let mp := (m + 9) % 12
  let doy := (153 * mp + 2) / 5 + d - 1
  let doe := yoe * 365 + yoe / 4 - yoe / 100 + doy
  era * 146097 + doe - 719468

/-- The civil date (year, month, day) of a day number. -/
def civilFromDays (days : Int) : Int × Int × Int :=
  let z := days + 719468
  let era := z / 146097
  let doe := z - era * 146097
  let yoe := (doe - doe / 1460 + doe / 36524 - doe / 146096) / 365
  let doy := doe - (365 * yoe + yoe / 4 - yoe / 100)
  let mp := (5 * doy + 2) / 153
  let d := doy - (153 * mp + 2) / 5 + 1
  let m := if mp < 10 then mp + 3 else mp - 9
  (if m ≤ 2 then yoe + era * 400 + 1 else yoe + era * 400, m, d)

/-- Milliseconds in a day. -/
def msPerDay : Int := 86400000

/-- The fixed offset from UTC, in milliseconds, of the zones the reference library knows;
any other zone argument is read as UTC. -/
def zoneOffset : JVal → Int
  | .str "Africa/Nairobi" => 10800000
  | .str "Asia/Tokyo" => 32400000
  | .str "America/Bogota" => -18000000
  | _ => 0

/-- Reading a run of decimal digits: its value, how many digits, and the remaining input. -/
def readDigits : List Char → Nat → Nat → Nat × Nat × List Char
  | [], acc, n => (acc, n, [])
  | c :: cs, acc, n =>
    if c.isDigit then readDigits cs (acc * 10 + (c.toNat - 48)) (n + 1) else (acc, n, c :: cs)

/-- A number of at least one digit followed by the separator `sep`. -/
def readField (sep : Char) (s : List Char) : Option (Int × List Char) :=
  match readDigits s 0 0 with
  | (_, 0, _) => none
  | (v, _ + 1, c :: rest) => if c = sep then some (v, rest) else none
  | (_, _ + 1, []) => none

/-- The instant of a civil date and time of day in a zone, if the date exists. -/
def civilInstant (zone : JVal) (y m d hh mm ss ms : Int) : Option Int :=
  if 1 ≤ m ∧ m ≤ 12 ∧ 1 ≤ d ∧ civilFromDays (daysFromCivil y m d) = (y, m, d) ∧
      0 ≤ hh ∧ hh < 24 ∧ 0 ≤ mm ∧ mm < 60 ∧ 0 ≤ ss ∧ ss < 60 then
    some (daysFromCivil y m d * msPerDay + ((hh * 60 + mm) * 60 + ss) * 1000 + ms
      - zoneOffset zone)
  else none

/-- Parsing under `M/D/YYYY h:mm:ss A`. -/
def parseSlotText (zone : JVal) (s : List Char) : Option Int :=
  (readField '/' s).bind fun (m, s1) =>
  (readField '/' s1).bind fun (d, s2) =>
  (readField ' ' s2).bind fun (y, s3) =>
  (readField ':' s3).bind fun (hh, s4) =>
  (readField ':' s4).bind fun (mm, s5) =>
  (readField ' ' s5).bind fun (ss, s6) =>
  if 1 ≤ hh ∧ hh ≤ 12 then
    if s6 = ['A', 'M'] then civilInstant zone y m d (hh % 12) mm ss 0
    else if s6 = ['P', 'M'] then civilInstant zone y m d (hh % 12 + 12) mm ss 0
    else none
  else none

/-- Parsing under `YYYY-MM-DD` (midnight in the zone). -/
def parseDayText (zone : JVal) (s : List Char) : Option Int :=
  (readField '-' s).bind fun (y, s1) =>
  (readField '-' s1).bind fun (m, s2) =>
  match readDigits s2 0 0 with
  | (d, _ + 1, []) => civilInstant zone y m d 0 0 0 0
  | _ => none

/-- Parsing the output of `toISOString`: `YYYY-MM-DDTHH:mm:ss.SSSZ`. -/
def parseIsoText (s : List Char) : Option Int :=
  (readField '-' s).bind fun (y, s1) =>
  (readField '-' s1).bind fun (m, s2) =>
  (readField 'T' s2).bind fun (d, s3) =>
  (readField ':' s3).bind fun (hh, s4) =>
  (readField ':' s4).bind fun (mm, s5) =>
  (readField '.' s5).bind fun (ss, s6) =>
  (readField 'Z' s6).bind fun (ms, s7) =>
  if s7 = [] ∧ ms < 1000 then civilInstant .null y m d hh mm ss ms else none

/-- A natural number in decimal, padded with zeros to `width` digits. -/
def padded (width : Nat) (n : Int) : String :=
  let digits := (Nat.toDigits 10 n.toNat)
  String.mk (List.replicate (width - digits.length) '0' ++ digits)

/-- The text `YYYY-MM-DD` of a day number. -/
def dayText (days : Int) : String :=
  match civilFromDays days with
  | (y, m, d) => padded 4 y ++ "-" ++ padded 2 m ++ "-" ++ padded 2 d

/-- The text `YYYY-MM-DDTHH:mm:ss.SSSZ` of an instant. -/
def isoText (t : Int) : String :=
  let r := t % msPerDay
  dayText (t / msPerDay) ++ "T" ++ padded 2 (r / 3600000) ++ ":" ++
    padded 2 (r / 60000 % 60) ++ ":" ++ padded 2 (r / 1000 % 60) ++ "." ++
    padded 3 (r % 1000) ++ "Z"

/-- The reference library: fixed-offset zones, the slot format, `YYYY-MM-DD` and ISO
timestamps. Every `format` pattern prints the calendar date as `YYYY-MM-DD`. -/
def refLib : MomentLib where
  parse := fun formats text zone =>
    if formats = ["M/D/YYYY h:mm:ss A"] then parseSlotText zone text.data
    else if "YYYY-MM-DD" ∈ formats then parseDayText zone text.data
    else none
  parseAuto := fun value zone =>
    match zone with
    | .str _ =>
      match value with
      | .str text => .ok (parseIsoText text.data)
      | .num n => .ok (some n)
      | _ => .ok none
    | _ => .error ⟨"name.toLowerCase is not a function"⟩
  newDate := fun value =>
    match value with
    | .str text => parseIsoText text.data
    | .num n => some n
    | _ => none
  toISOString := isoText
  startOfDay := fun zone t => t - (t + zoneOffset zone) % msPerDay
  dayOf := fun zone t => (t + zoneOffset zone) / msPerDay
  format := fun _pattern zone t =>
    match t with
    | some t => dayText ((t + zoneOffset zone) / msPerDay)
    | none => "Invalid date"

/-- The chat channel is `Ready`: transport present, marked initialised, recipient
configured (the test of `sendMessage` and of the outer `catch`). -/
def chatReady (cfg : Config) (st : State) : Bool :=
  st.bot.isSome && st.botInitialized && decide (cfg.CHAT_ID ≠ "")

/-- The instant of a candidate with a valid date. -/
def Candidate.instant (c : Candidate) : Int := c.fullDate.ms.getD 0

/-! ## Sample inputs -/

/-- A configuration with every channel enabled. -/
def sampleCfg : Config :=
  { CHAT_ID := "42", TIMEZONE := "Africa/Nairobi", enableEmail := true,
    enablePushbullet := true }

/-- The reference appointment `/set 2025-12-31` builds. -/
def sampleRef : Appointment :=
  { fullDate := { ms := refLib.parse ["YYYY-MM-DD"] "2025-12-31" (.str "Africa/Nairobi"),
                  zone := .str "Africa/Nairobi" },
    time := .str "23:59",
    originalString := .str "2025-12-31",
    savedAt := none,
    setAt := some "2025-06-01T08:00:00.000Z",
    timezone := .str "Africa/Nairobi" }

/-- A state with the reference set, no check running and the chat transport `Ready`. -/
def sampleState : State :=
  { currentAppointment := some sampleRef, isRunning := false, isCleaningUp := false,
    bot := some 1, botInitialized := true, isBotInitializing := false,
    isBotInitialized := none }

/-- A world in which every send succeeds and the page lists no slot. -/
def quietEnv : Env :=
  { httpPost := .response 200 "OK" (.text "<html></html>"),
    botSendMessage := fun _ _ => none,
    sendMail := fun _ _ => none,
    pushPost := fun _ _ => none,
    mkdir := none,
    writeFile := none,
    readFile := none,
    now := 1748764800000 }

/-- A slot on 2025-12-01 at 10:30 and one on 2025-09-25 at 9:00, in document order. -/
def sampleCandidates : List Candidate :=
  [ { fullDate := parseAppointmentDate refLib sampleCfg "12/1/2025 10:30:00 AM",
      time := "10:30 AM", originalString := "12/1/2025 10:30:00 AM" },
    { fullDate := parseAppointmentDate refLib sampleCfg "9/25/2025 9:00:00 AM",
      time := "9:00 AM", originalString := "9/25/2025 9:00:00 AM" } ]

/-- The calls that touch the appointment file. -/
def Effect.isStoreAccess : Effect → Bool
  | .fileMkdir => true
  | .fileWrite _ => true
  | .fileRead => true
  | _ => false

/-- The external calls of a send on the chat channel: one call when it is `Ready`, else none. -/
def chatTrace (cfg : Config) (st : State) (text : String) : List Effect :=
  match st.bot with
  | some bot => if st.botInitialized ∧ cfg.CHAT_ID ≠ "" then [Effect.chatSend bot text] else []
  | none => []

/-- The state of the sample with a check in progress. -/
def busyState : State := { sampleState with isRunning := true }

/-- A world in which the request is refused and every send is rejected. -/
def hostileEnv : Env :=
  { httpPost := .failed (some "ECONNREFUSED") none true "connect ECONNREFUSED",
    botSendMessage := fun _ _ => some ⟨"ETELEGRAM: 400 Bad Request: chat not found"⟩,
    sendMail := fun _ _ => some ⟨"Invalid login"⟩,
    pushPost := fun _ _ => some ⟨"Request failed with status code 401"⟩,
    mkdir := none,
    writeFile := none,
    readFile := none,
    now := 1748764800000 }

/-- A page listing a slot on 2025-12-01 and, after it, one on 2025-09-25. -/
def samplePage : String :=
  "<div><input type=\"radio\" id=\"scheduler_12/1/2025 10:30:00 AM\" />" ++
  "<label for=\"scheduler_12/1/2025 10:30:00 AM\"> 10:30 AM </label></div>\n" ++
  "<div><label for=\"scheduler_9/25/2025 9:00:00 AM\">9:00 AM</label></div>"

/-- A page listing a single slot, on 2026-01-15. -/
def latePage : String :=
  "<label for=\"scheduler_1/15/2026 8:15:00 AM\">8:15 AM</label>"

/-- A world that serves `samplePage` and rejects every send. -/
def foundEnv : Env := { hostileEnv with httpPost := .response 200 "OK" (.text samplePage) }

/-- A world that serves `latePage` and rejects every send. -/
def lateEnv : Env := { hostileEnv with httpPost := .response 200 "OK" (.text latePage) }

/-- A world in which the request is cancelled by the abort signal and every send is
rejected. -/
def timeoutEnv : Env := { hostileEnv with httpPost := .cancelled }

/-- The slot of `samplePage` on 2025-09-25. -/
def septemberSlot : Candidate :=
  { fullDate := parseAppointmentDate refLib sampleCfg "9/25/2025 9:00:00 AM",
    time := "9:00 AM", originalString := "9/25/2025 9:00:00 AM" }

/-- The slot of `latePage`. -/
def januarySlot : Candidate :=
  { fullDate := parseAppointmentDate refLib sampleCfg "1/15/2026 8:15:00 AM",
    time := "8:15 AM", originalString := "1/15/2026 8:15:00 AM" }

/-- The record `saveAppointment` hands to `JSON.stringify` (lines 125 to 132). -/
def savedRecord (lib : MomentLib) (cfg : Config) (env : Env) (appointment : Appointment) :
    List (String × JVal) :=
  [ ("fullDate", match appointment.fullDate.ms with
      | some t => .str (lib.toISOString t)
      | none => .null),
    ("time", appointment.time),
    ("originalString", appointment.originalString),
    ("savedAt", .str (lib.toISOString env.now)),
    ("timezone", .str cfg.TIMEZONE) ]

/-- No appointment file. -/
def emptyDisk : Disk := { file := none }

/-! ## The pattern of the document parser, in words -/

/-- The text `<label for="scheduler_TOKEN">LABEL</label>`. -/
def labelMarkup (token label : List Char) : List Char :=
  labelOpen ++ token ++ labelMid ++ label ++ labelClose

/-- A token of the pattern: a non-empty attribute value, so without a double quote. -/
def ValidToken (token : List Char) : Prop := token ≠ [] ∧ ∀ c ∈ token, c ≠ Char.ofNat 34

/-- A label of the pattern: a non-empty text, so without the start of a tag. -/
def ValidLabel (label : List Char) : Prop := label ≠ [] ∧ ∀ c ∈ label, c ≠ '<'

/-- The input starts with an occurrence of the pattern. -/
def OccursAtHead (s : List Char) : Prop :=
  ∃ token label rest, ValidToken token ∧ ValidLabel label ∧ s = labelMarkup token label ++ rest

/-- The non-overlapping occurrences of the pattern in a document, read from the left, as
(TOKEN, LABEL) pairs in document order: a character at which no occurrence starts is passed
over, an occurrence is recorded and reading resumes right after it. -/
inductive Occurrences : List Char → List (List Char × List Char) → Prop
  | done : Occurrences [] []
  | skip (c : Char) (s : List Char) (l : List (List Char × List Char)) :
      ¬ OccursAtHead (c :: s) → Occurrences s l → Occurrences (c :: s) l
  | take (token label rest : List Char) (l : List (List Char × List Char)) :
      ValidToken token → ValidLabel label → Occurrences rest l →
      Occurrences (labelMarkup token label ++ rest) ((token, label) :: l)

/-- The candidate the parser builds for an occurrence with this TOKEN and LABEL. -/
def candidateOf (lib : MomentLib) (cfg : Config) (occ : List Char × List Char) : Candidate :=
  { fullDate := { ms := lib.parse ["M/D/YYYY h:mm:ss A"] (String.mk occ.1) (.str cfg.TIMEZONE),
                  zone := .str cfg.TIMEZONE },
    time := String.mk (jsTrim occ.2),
    originalString := String.mk occ.1 }

/-- A page whose only label carries a token that is not a date. -/
def oddPage : String := "<label for=\"scheduler_soon\">soon</label>"

/-- A world that serves `oddPage` and accepts every send. -/
def oddEnv : Env := { quietEnv with httpPost := .response 200 "OK" (.text oddPage) }

/-- The candidate `extractAppointments` builds for the label of `oddPage`. -/
def oddSlot : Candidate :=
  { fullDate := { ms := none, zone := .str "Africa/Nairobi" }, time := "soon",
    originalString := "soon" }

/-- A world that answers with an empty body and accepts every send. -/
def emptyBodyEnv : Env := { quietEnv with httpPost := .response 200 "OK" (.text "") }

/-- What `loadAppointment` returns once the file has been read and parsed into the record
`data` (lines 83 to 108, with a throw of the date library caught at line 106). -/
def loadedRecord (lib : MomentLib) (cfg : Config) (env : Env) (data : List (String × JVal)) :
    Option Appointment :=
  if !(getField data "fullDate").truthy then none
  else
    match lib.parseAuto (getField data "fullDate")
        ((getField data "timezone").or (.str cfg.TIMEZONE)) with
    | .error _ => none
    | .ok ms =>
      if !(Moment.isValid { ms := ms, zone := (getField data "timezone").or (.str cfg.TIMEZONE) })
      then none
      else some
        { fullDate := { ms := ms, zone := (getField data "timezone").or (.str cfg.TIMEZONE) },
          time := (getField data "time").or (.str "00:00"),
          originalString := (getField data "originalString").or (getField data "fullDate"),
          savedAt := some (if (getField data "savedAt").truthy
            then lib.newDate (getField data "savedAt") else some env.now),
          setAt := none,
          timezone := (getField data "timezone").or (.str cfg.TIMEZONE) }

/-! ## The `/set` command -/

/-- The formats the `/set` handler accepts, in order (line 655). -/
def setFormats : List String :=
  ["DD/MM/YYYY", "DD.MM.YYYY", "YYYY-MM-DD", "MM/DD/YYYY", "M/D/YYYY"]

/-- The reply of the `/set` handler to a date it cannot parse (lines 657 to 662). -/
def invalidDateMessage : String :=
  "❌ Invalid date format. Please use one of these formats:\n" ++
  "• DD/MM/YYYY (e.g., 12/06/2025)\n" ++
  "• DD.MM.YYYY (e.g., 12.06.2025)\n" ++
  "• YYYY-MM-DD (e.g., 2025-06-12)\n" ++
  "• MM/DD/YYYY (e.g., 06/12/2025)\n" ++
  "• M/D/YYYY (e.g., 6/12/2025)"

/-- The reply of the `/set` handler after a successful save (lines 676 and 677). -/
def setConfirmation (formattedDate : String) : String :=
  "✅ Your current appointment has been set to: " ++ formattedDate ++ "\n" ++
  "I\x27ll notify you if I find any earlier appointments."

/-- The object literal of the `/set` handler (lines 665 to 671), for the parsed `date` and
the trimmed text `dateString`. -/
def buildReference (lib : MomentLib) (cfg : Config) (env : Env) (date : Moment)
    (dateString : String) : Appointment :=
  { fullDate := date.startOfDay lib,
    time := .str "23:59",
    originalString := .str dateString,
    savedAt := none,
    setAt := some (lib.toISOString env.now),
    timezone := .str cfg.TIMEZONE }

/-- One run of the `/set` handler: the `state` object and the appointment file afterwards,
the external calls made, and the outcome of each call of `checkAppointments` it made. -/
structure SetRun where
  state : State
  disk : Disk
  trace : List Effect
  checks : List Outcome

/-- The `/set` handler (lines 651 to 686) for a message from chat `chatId` whose text
matched with `captured` as group 1. -/
def handleSet (lib : MomentLib) (cfg : Config) (env : Env) (st : State) (disk : Disk)
    (chatId captured : String) : SetRun :=
  if chatId ≠ cfg.CHAT_ID then { state := st, disk := disk, trace := [], checks := [] }
  else
    let dateString := String.mk (jsTrim captured.data)
    let date : Moment :=
      { ms := lib.parse setFormats dateString (.str cfg.TIMEZONE), zone := .str cfg.TIMEZONE }
    if !date.isValid then
      { state := st, disk := disk,
        trace := (sendMessage cfg env st invalidDateMessage).trace, checks := [] }
    else
      let appointment := buildReference lib cfg env date dateString
      let st1 : State := { st with currentAppointment := some appointment }
      let saved := saveAppointment lib cfg env disk (some appointment)
      match saved.1.result with
      | .ok true =>
        let reply := sendMessage cfg env st1
          (setConfirmation ((date.startOfDay lib).format lib "dddd, MMMM Do, YYYY"))
        let check := checkAppointments lib cfg env st1
        { state := check.state, disk := saved.2,
          trace := saved.1.trace ++ (reply.trace ++ check.trace), checks := [check] }
      | .ok false =>
        { state := st1, disk := saved.2,
          trace := saved.1.trace ++
            (sendMessage cfg env st1
              "❌ Failed to save your appointment. Please try again.").trace,
          checks := [] }
      | .error _ =>
        { state := st1, disk := saved.2,
          trace := saved.1.trace ++
            (sendMessage cfg env st1 "❌ Error setting appointment. Please try again.").trace,
          checks := [] }

/-- A world in which the appointment file cannot be written. -/
def diskFullEnv : Env := { quietEnv with writeFile := some ⟨"ENOSPC: no space left on device"⟩ }

/-- A record written before the `time` and `timezone` fields existed. -/
def legacyRecord : List (String × JVal) := [("fullDate", .str "2025-12-30T21:00:00.000Z")]

/-- A configuration whose timezone is `America/Bogota`. -/
def bogotaCfg : Config := { sampleCfg with TIMEZONE := "America/Bogota" }

/-- A record saved while the configured timezone was `Asia/Tokyo`: 2025-12-31, 00:00 there. -/
def tokyoRecord : List (String × JVal) :=
  [ ("fullDate", .str "2025-12-30T15:00:00.000Z"), ("time", .str "23:59"),
    ("originalString", .str "2025-12-31"), ("savedAt", .str "2025-06-01T08:00:00.000Z"),
    ("timezone", .str "Asia/Tokyo") ]

/-- The appointment `loadAppointment` returns for `tokyoRecord`. -/
def tokyoLoaded : Appointment :=
  { fullDate := { ms := some 1767106800000, zone := .str "Asia/Tokyo" },
    time := .str "23:59",
    originalString := .str "2025-12-31",
    savedAt := some (some 1748764800000),
    setAt := none,
    timezone := .str "Asia/Tokyo" }

/-- A state whose reference is `tokyoLoaded`. -/
def tokyoState : State := { sampleState with currentAppointment := some tokyoLoaded }

/-- A page with one slot, on 2025-12-30 at 11:00 in the configured timezone. -/
def bogotaPage : String := "<label for=\"scheduler_12/30/2025 11:00:00 AM\">11:00 AM</label>"

/-- The slot of `bogotaPage` under `bogotaCfg`: 16:00 UTC, which is 01:00 on 2025-12-31 in
`Asia/Tokyo`. -/
def bogotaSlot : Candidate :=
  { fullDate := { ms := some 1767110400000, zone := .str "America/Bogota" },
    time := "11:00 AM", originalString := "12/30/2025 11:00:00 AM" }

/-- A world that serves `bogotaPage` and accepts every send. -/
def bogotaEnv : Env := { quietEnv with httpPost := .response 200 "OK" (.text bogotaPage) }

/-- The reference `/set 2026-02-01` builds under the sample configuration. -/
def februaryReference : Appointment :=
  buildReference refLib sampleCfg quietEnv
    { ms := some 1769893200000, zone := .str "Africa/Nairobi" } "2026-02-01"

/-! ## Connection supervisor (`setupBot`) -/

/-- A call on the chat library made by the connection supervisor. -/
inductive BotEffect
  /-- The call `new TelegramBot(...)` that builds transport instance `bot`. -/
  | construct (bot : Nat)
  /-- The call `bot.on('polling_error', ...)`. -/
  | onPollingError (bot : Nat)
  /-- The liveness probe `bot.getMe()`. -/
  | getMe (bot : Nat)
  /-- The call `bot.stopPolling()`. -/
  | stopPolling (bot : Nat)
  /-- The call `bot.onText(pattern, handler)`, with the source of the pattern. -/
  | onText (bot : Nat) (pattern : String)
  /-- The wait of `RETRY_DELAY_MS` before a retry. -/
  | delay (ms : Nat)
  deriving DecidableEq, Repr

/-- What the chat library does for the supervisor: whether building instance `n` throws,
and what the probe and the stop of an instance settle with (`none` is success). -/
structure BotEnv where
  construct : Nat → Option JsError
  getMe : Nat → Option JsError
  stopPolling : Nat → Option JsError

/-- The mutable data of the supervisor: the global `state`, the variable
`commandHandlersAttached` of `setupBot`, and how many times the transport constructor has
been called (the next instance is identified by this number). -/
structure Supervisor where
  state : State
  commandHandlersAttached : Bool
  created : Nat
  deriving DecidableEq, Repr

/-- A settled call of a supervisor function: its value, the data afterwards, the calls made. -/
structure BotRun (α : Type) where
  value : α
  sup : Supervisor
  trace : List BotEffect

/-- The constant `MAX_RETRIES`. -/
def MAX_RETRIES : Nat := 5

/-- The constant `RETRY_DELAY_MS`. -/
def RETRY_DELAY_MS : Nat := 10000

/-- Lines 544 to 573 of `initializeBot` when the constructor returns: the flag is set, the
new instance is in `state.bot`, its error listener is attached, and the probe is awaited. -/
def beginAttempt (sup : Supervisor) : Supervisor :=
  { sup with
    state := { sup.state with isBotInitializing := true, bot := some sup.created },
    created := sup.created + 1 }

/-- Line 544 and the `try` block of `initializeBot` (lines 547 to 580): the instance
returned if the block completes (`none` if it threw), the data and the calls made. -/
def tryAttempt (env : BotEnv) (sup : Supervisor) : BotRun (Option Nat) :=
  match env.construct sup.created with
  | some _ =>
    { value := none,
      sup := { sup with state := { sup.state with isBotInitializing := true },
                        created := sup.created + 1 },
      trace := [.construct sup.created] }
  | none =>
    match env.getMe sup.created with
    | some _ =>
      { value := none, sup := beginAttempt sup,
        trace := [.construct sup.created, .onPollingError sup.created, .getMe sup.created] }
    | none =>
      { value := some sup.created,
        sup := { beginAttempt sup with
          state := { (beginAttempt sup).state with botInitialized := true } },
        trace := [.construct sup.created, .onPollingError sup.created, .getMe sup.created] }

/-- Lines 583 to 596, the start of the `catch` block of `initializeBot`: the mistyped flag
is written, the transport in `state` (if any) is stopped and dropped, the single-flight flag
is cleared. A rejection of `stopPolling` is caught. -/
def cleanupAttempt (st : State) : State × List BotEffect :=
  match st.bot with
  | some bot =>
    ({ st with isBotInitialized := some false, bot := none, isBotInitializing := false },
      [.stopPolling bot])
  | none => ({ st with isBotInitialized := some false, isBotInitializing := false }, [])

/-- The function `initializeBot`. -/
def initializeBot (env : BotEnv) (sup : Supervisor) (retryCount : Nat) :
    BotRun (Option Nat) :=
  if sup.state.isBotInitializing then { value := sup.state.bot, sup := sup, trace := [] }
  else
    match (tryAttempt env sup).value with
    | some bot =>
      { value := some bot, sup := (tryAttempt env sup).sup, trace := (tryAttempt env sup).trace }
    | none =>
      let cleaned : Supervisor :=
        { (tryAttempt env sup).sup with
          state := (cleanupAttempt (tryAttempt env sup).sup.state).1 }
      let soFar := (tryAttempt env sup).trace ++ (cleanupAttempt (tryAttempt env sup).sup.state).2
      if retryCount < MAX_RETRIES - 1 then
        { value := (initializeBot env cleaned (retryCount + 1)).value,
          sup := (initializeBot env cleaned (retryCount + 1)).sup,
          trace := soFar ++ [.delay RETRY_DELAY_MS] ++
            (initializeBot env cleaned (retryCount + 1)).trace }
      else { value := none, sup := cleaned, trace := soFar }
termination_by MAX_RETRIES - retryCount
decreasing_by all_goals (simp only [MAX_RETRIES] at *; omega)

/-- The function `setupCommandHandlers`. The `/check` handler is registered on `state.bot`
(line 690), the three others on the argument; with `state.bot` null that call throws. -/
def setupCommandHandlers (sup : Supervisor) (bot : Option Nat) :
    BotRun (Except JsError Unit) :=
  match bot with
  | none => { value := .ok (), sup := sup, trace := [] }
  | some b =>
    if sup.commandHandlersAttached then { value := .ok (), sup := sup, trace := [] }
    else
      match sup.state.bot with
      | none =>
        { value := .error ⟨"Cannot read properties of null (reading onText)"⟩, sup := sup,
          trace := [.onText b "\\/set (.+)"] }
      | some stateBot =>
        { value := .ok (), sup := { sup with commandHandlersAttached := true },
          trace := [.onText b "\\/set (.+)", .onText stateBot "\\/check",
            .onText b "\\/current", .onText b "\\/start"] }

/-- Lines 614 to 624 of `reconnectBot`: the transport in `state` (if any) is stopped and
dropped, and both flags are reset. -/
def resetConnection (st : State) : State × List BotEffect :=
  match st.bot with
  | some bot =>
    ({ st with bot := none, botInitialized := false, isBotInitializing := false },
      [.stopPolling bot])
  | none => ({ st with botInitialized := false, isBotInitializing := false }, [])

/-- The function `reconnectBot`; its `catch` swallows a throw of `setupCommandHandlers`. -/
def reconnectBot (env : BotEnv) (sup : Supervisor) : BotRun Unit :=
  let reset : Supervisor := { sup with state := (resetConnection sup.state).1 }
  let init := initializeBot env reset 0
  match init.value with
  | some newBotInstance =>
    let assigned : Supervisor :=
      { init.sup with state := { init.sup.state with bot := some newBotInstance } }
    let handlers := setupCommandHandlers assigned assigned.state.bot
    { value := (), sup := handlers.sup,
      trace := (resetConnection sup.state).2 ++ init.trace ++ handlers.trace }
  | none =>
    { value := (), sup := init.sup, trace := (resetConnection sup.state).2 ++ init.trace }

/-- Lines 760 to 779 of `setupBot`: the first initialisation and the attachment of the
command handlers; the value is `state.bot`, or the error rethrown at line 778. -/
def setupBot (env : BotEnv) (sup : Supervisor) : BotRun (Except JsError (Option Nat)) :=
  let init := initializeBot env sup 0
  match init.value with
  | some botInstance =>
    let assigned : Supervisor :=
      { init.sup with state := { init.sup.state with bot := some botInstance } }
    let handlers := setupCommandHandlers assigned assigned.state.bot
    match handlers.value with
    | .ok _ =>
      { value := .ok handlers.sup.state.bot, sup := handlers.sup,
        trace := init.trace ++ handlers.trace }
    | .error e =>
      { value := .error e, sup := handlers.sup, trace := init.trace ++ handlers.trace }
  | none => { value := .ok init.sup.state.bot, sup := init.sup, trace := init.trace }

/-- The number of times a command pattern was registered on a transport instance by the
calls of a trace. -/
def timesRegistered (trace : List BotEffect) (bot : Nat) (pattern : String) : Nat :=
  trace.count (.onText bot pattern)

/-- The number of constructor calls in a trace. -/
def constructions (trace : List BotEffect) : Nat :=
  (trace.filter fun e => match e with
    | .construct _ => true
    | _ => false).length

/-- The `state` object at process start (lines 145 to 152), without a reference. -/
def initialState : State :=
  { currentAppointment := none, isRunning := false, isCleaningUp := false, bot := none,
    botInitialized := false, isBotInitializing := false, isBotInitialized := none }

/-- The supervisor at process start: `Uninitialized`, no handler attached, no transport
built yet. -/
def initialSupervisor : Supervisor :=
  { state := initialState, commandHandlersAttached := false, created := 0 }

/-- A chat service on which every call succeeds. -/
def reachableBotEnv : BotEnv :=
  { construct := fun _ => none, getMe := fun _ => none, stopPolling := fun _ => none }

/-- A chat service on which every probe is rejected. -/
def unreachableBotEnv : BotEnv :=
  { construct := fun _ => none, getMe := fun _ => some ⟨"EFATAL: getaddrinfo ENOTFOUND"⟩,
    stopPolling := fun _ => none }

/-- The supervisor while the first attempt awaits its probe: instance 0 is in `state.bot`
and the single-flight flag is set. -/
def probingSupervisor : Supervisor := beginAttempt initialSupervisor

/-- A world that answers with the body `null` and accepts every send. -/
def nullBodyEnv : Env := { quietEnv with httpPost := .response 200 "OK" .null }

/-- The slot on 2025-12-01 at 10:30. -/
def decemberSlot : Candidate :=
  { fullDate := parseAppointmentDate refLib sampleCfg "12/1/2025 10:30:00 AM",
    time := "10:30 AM", originalString := "12/1/2025 10:30:00 AM" }

/-- A page with a label for 1 December, one whose token is not a date, and one for
25 September, in that order. -/
def mixedPage : String :=
  "<label for=\"scheduler_12/1/2025 10:30:00 AM\">10:30 AM</label>" ++
  "<label for=\"scheduler_soon\">soon</label>" ++
  "<label for=\"scheduler_9/25/2025 9:00:00 AM\">9:00 AM</label>"

/-- A world that serves `mixedPage` and accepts every send. -/
def mixedEnv : Env := { quietEnv with httpPost := .response 200 "OK" (.text mixedPage) }

/-! # Theorems -/

/-! ## Lemmas: effects -/

theorem Run.andThen_ok {α β : Type} (x : Run α) (f : α → Run β) (a : α)
    (h : x.result = .ok a) :
    (x.andThen f).result = (f a).result ∧ (x.andThen f).trace = x.trace ++ (f a).trace := by
  unfold Run.andThen
  rw [h]
  exact ⟨rfl, rfl⟩

theorem Run.andThen_error {α β : Type} (x : Run α) (f : α → Run β) (e : JsError)
    (h : x.result = .error e) :
    (x.andThen f).result = .error e ∧ (x.andThen f).trace = x.trace := by
  unfold Run.andThen
  rw [h]
  exact ⟨rfl, rfl⟩

theorem Run.pure_result {α : Type} (a : α) : (pure a : Run α).result = .ok a := rfl

theorem Run.pure_trace {α : Type} (a : α) : (pure a : Run α).trace = [] := rfl

theorem Run.call_tryCatch_result (e : Effect) (settled : Option JsError) :
    ((Run.call e settled).tryCatch fun _ => pure ()).result = .ok () := by
  cases settled <;> rfl

theorem Run.call_tryCatch_trace (e : Effect) (settled : Option JsError) :
    ((Run.call e settled).tryCatch fun _ => pure ()).trace = [e] := by
  cases settled <;> rfl

theorem sendMessage_result (cfg : Config) (env : Env) (st : State) (text : String) :
    (sendMessage cfg env st text).result = .ok () := by
  unfold sendMessage
  split
  · rfl
  · split
    · rfl
    · exact Run.call_tryCatch_result _ _

theorem sendMessage_trace (cfg : Config) (env : Env) (st : State) (text : String) :
    (sendMessage cfg env st text).trace = chatTrace cfg st text := by
  unfold sendMessage chatTrace
  cases hb : st.bot with
  | none => rfl
  | some bot =>
    by_cases hi : st.botInitialized = true <;> by_cases hc : cfg.CHAT_ID = "" <;>
      simp [hi, hc, Run.call_tryCatch_trace] <;> rfl

theorem sendEmailNotification_result (cfg : Config) (env : Env) (subject text : String) :
    (sendEmailNotification cfg env subject text).result = .ok () := by
  unfold sendEmailNotification
  split
  · rfl
  · exact Run.call_tryCatch_result _ _

theorem sendEmailNotification_trace (cfg : Config) (env : Env) (subject text : String) :
    (sendEmailNotification cfg env subject text).trace =
      if cfg.enableEmail then [Effect.mailSend subject text] else [] := by
  unfold sendEmailNotification
  cases cfg.enableEmail
  · rfl
  · simp [Run.call_tryCatch_trace]

theorem sendPushNotification_result (cfg : Config) (env : Env) (title body : String) :
    (sendPushNotification cfg env title body).result = .ok () := by
  unfold sendPushNotification
  split
  · rfl
  · exact Run.call_tryCatch_result _ _

theorem sendPushNotification_trace (cfg : Config) (env : Env) (title body : String) :
    (sendPushNotification cfg env title body).trace =
      if cfg.enablePushbullet then [Effect.pushSend title body] else [] := by
  unfold sendPushNotification
  cases cfg.enablePushbullet
  · rfl
  · simp [Run.call_tryCatch_trace]

/-! ## Lemmas: the sort and its first element -/

theorem compareByDate_valid (a b : Candidate) (ha : a.fullDate.ms.isSome)
    (hb : b.fullDate.ms.isSome) : compareByDate a b = a.instant - b.instant := by
  unfold compareByDate Candidate.instant
  cases hx : a.fullDate.ms with
  | none => simp [hx] at ha
  | some x =>
    cases hy : b.fullDate.ms with
    | none => simp [hy] at hb
    | some y => simp

theorem insertSorted_ne_nil (cmp : Candidate → Candidate → Int) (a : Candidate)
    (l : List Candidate) : insertSorted cmp a l ≠ [] := by
  cases l with
  | nil => simp [insertSorted]
  | cons b l =>
    unfold insertSorted
    split <;> simp

theorem jsSort_ne_nil (cmp : Candidate → Candidate → Int) (l : List Candidate)
    (h : l ≠ []) : jsSort cmp l ≠ [] := by
  cases l with
  | nil => exact absurd rfl h
  | cons a l => exact insertSorted_ne_nil cmp a _

/-- On valid dates, the first element of the sorted array is the first occurrence, in the
original order, of the minimum instant. -/
theorem jsSort_head_first_min (l : List Candidate)
    (hv : ∀ c ∈ l, c.fullDate.ms.isSome = true) (e : Candidate) (rest : List Candidate)
    (h : jsSort compareByDate l = e :: rest) :
    ∃ pre post, l = pre ++ e :: post ∧ (∀ c ∈ pre, e.instant < c.instant) ∧
      (∀ c ∈ post, e.instant ≤ c.instant) := by
  induction l generalizing e rest with
  | nil => simp [jsSort] at h
  | cons a l ih =>
    have hva : a.fullDate.ms.isSome = true := hv a (List.mem_cons_self _ _)
    have hvl : ∀ c ∈ l, c.fullDate.ms.isSome = true :=
      fun c hc => hv c (List.mem_cons_of_mem _ hc)
    cases hs : jsSort compareByDate l with
    | nil =>
      have hl : l = [] := by
        by_contra hne
        exact jsSort_ne_nil _ l hne hs
      subst hl
      simp [jsSort, insertSorted] at h
      refine ⟨[], [], ?_, ?_, ?_⟩
      · simp [h.1]
      · simp
      · simp
    | cons b r =>
      obtain ⟨pre, post, hl, hpre, hpost⟩ := ih hvl b r hs
      have hb_mem : b ∈ l := by rw [hl]; simp
      have hvb : b.fullDate.ms.isSome = true := hvl b hb_mem
      have hall : ∀ c ∈ l, b.instant ≤ c.instant := by
        intro c hc
        rw [hl] at hc
        rcases List.mem_append.mp hc with hc | hc
        · exact le_of_lt (hpre c hc)
        · rcases List.mem_cons.mp hc with hc | hc
          · rw [hc]
          · exact hpost c hc
      have hcmp := compareByDate_valid a b hva hvb
      simp only [jsSort, hs, insertSorted] at h
      by_cases hle : compareByDate a b ≤ 0
      · rw [if_pos hle] at h
        have hea : a = e := (List.cons.inj h).1
        subst hea
        refine ⟨[], l, rfl, ?_, ?_⟩
        · simp
        · intro c hc
          have := hall c hc
          omega
      · rw [if_neg hle] at h
        have heb : b = e := (List.cons.inj h).1
        subst heb
        refine ⟨a :: pre, post, ?_, ?_, hpost⟩
        · rw [hl]; rfl
        · intro c hc
          rcases List.mem_cons.mp hc with hc | hc
          · rw [hc]; omega
          · exact hpre c hc

theorem jsSort_head_min (l : List Candidate)
    (hv : ∀ c ∈ l, c.fullDate.ms.isSome = true) (e : Candidate) (rest : List Candidate)
    (h : jsSort compareByDate l = e :: rest) :
    e ∈ l ∧ ∀ c ∈ l, e.instant ≤ c.instant := by
  obtain ⟨pre, post, hl, hpre, hpost⟩ := jsSort_head_first_min l hv e rest h
  refine ⟨by rw [hl]; simp, ?_⟩
  intro c hc
  rw [hl] at hc
  rcases List.mem_append.mp hc with hc | hc
  · exact le_of_lt (hpre c hc)
  · rcases List.mem_cons.mp hc with hc | hc
    · rw [hc]
    · exact hpost c hc

/-- Under the day laws, comparing starts of day is comparing calendar days. -/
theorem startOfDay_lt_iff (lib : MomentLib) (z : JVal) (hl : lib.DayLaws z) (a b : Int) :
    lib.startOfDay z a < lib.startOfDay z b ↔ lib.dayOf z a < lib.dayOf z b := by
  constructor
  · intro h
    have h1 := hl.dayOf_mono _ _ (le_of_lt h)
    rw [hl.dayOf_startOfDay, hl.dayOf_startOfDay] at h1
    rcases lt_or_eq_of_le h1 with h2 | h2
    · exact h2
    · have := hl.startOfDay_congr a b h2
      omega
  · intro h
    by_contra hn
    have h1 := hl.dayOf_mono _ _ (not_lt.mp hn)
    rw [hl.dayOf_startOfDay, hl.dayOf_startOfDay] at h1
    omega

/-! ## Lemmas: the decision step -/

/-- The test `foundDate.isBefore(userSetDate)` of line 482. -/
theorem isBefore_startOfDay (lib : MomentLib) (a b : Moment) :
    (a.clone.startOfDay lib).isBefore (b.clone.startOfDay lib) =
      match a.ms, b.ms with
      | some x, some y => decide (lib.startOfDay a.zone x < lib.startOfDay b.zone y)
      | _, _ => false := by
  unfold Moment.isBefore Moment.startOfDay Moment.clone
  cases a.ms <;> cases b.ms <;> rfl

/-- The decision step on a non-empty candidate list never throws; it returns the outcome of
the day comparison on the first element of the sorted array, after the sends of the branch
taken. -/
theorem decideAndNotify_cons (lib : MomentLib) (cfg : Config) (env : Env) (st : State)
    (ref : Appointment) (cands : List Candidate) (e : Candidate) (rest : List Candidate)
    (hs : jsSort compareByDate cands = e :: rest) :
    (decideAndNotify lib cfg env st ref cands).result =
        .ok ((e.fullDate.clone.startOfDay lib).isBefore (ref.fullDate.clone.startOfDay lib)) ∧
    (decideAndNotify lib cfg env st ref cands).trace =
        if (e.fullDate.clone.startOfDay lib).isBefore (ref.fullDate.clone.startOfDay lib) then
          (sendMessage cfg env st (foundMessage lib e)).trace ++
          ((sendEmailNotification cfg env "Earlier Appointment Found!"
              (foundMessage lib e)).trace ++
           (sendPushNotification cfg env "Earlier Appointment Found!"
              (foundPushBody lib e)).trace)
        else (sendMessage cfg env st (infoMessage lib ref e)).trace := by
  have hne : cands.length ≠ 0 := by
    intro h0
    have : cands = [] := List.length_eq_zero.mp h0
    subst this
    simp [jsSort] at hs
  unfold decideAndNotify
  rw [if_neg hne, hs]
  by_cases hb : (e.fullDate.clone.startOfDay lib).isBefore (ref.fullDate.clone.startOfDay lib)
      = true
  · simp only [hb, if_true]
    obtain ⟨r1, t1⟩ := Run.andThen_ok (sendMessage cfg env st (foundMessage lib e))
      (fun _ => (sendEmailNotification cfg env "Earlier Appointment Found!"
          (foundMessage lib e)).andThen fun _ =>
        (sendPushNotification cfg env "Earlier Appointment Found!"
          (foundPushBody lib e)).andThen fun _ => pure true) () (sendMessage_result _ _ _ _)
    obtain ⟨r2, t2⟩ := Run.andThen_ok (sendEmailNotification cfg env
        "Earlier Appointment Found!" (foundMessage lib e))
      (fun _ => (sendPushNotification cfg env "Earlier Appointment Found!"
          (foundPushBody lib e)).andThen fun _ => pure true) ()
      (sendEmailNotification_result _ _ _ _)
    obtain ⟨r3, t3⟩ := Run.andThen_ok (sendPushNotification cfg env
        "Earlier Appointment Found!" (foundPushBody lib e))
      (fun _ => (pure true : Run Bool)) () (sendPushNotification_result _ _ _ _)
    constructor
    · rw [r1, r2, r3]; rfl
    · rw [t1, t2, t3]
      show _ ++ (_ ++ (_ ++ [])) = _
      simp
  · have hb2 : (e.fullDate.clone.startOfDay lib).isBefore (ref.fullDate.clone.startOfDay lib)
        = false := by simpa using hb
    dsimp only
    rw [hb2]
    simp only [Bool.false_eq_true, if_false]
    obtain ⟨r1, t1⟩ := Run.andThen_ok (sendMessage cfg env st (infoMessage lib ref e))
      (fun _ => (pure false : Run Bool)) () (sendMessage_result _ _ _ _)
    constructor
    · exact r1
    · refine t1.trans ?_
      show _ ++ [] = _
      simp

theorem decideAndNotify_nil (lib : MomentLib) (cfg : Config) (env : Env) (st : State)
    (ref : Appointment) :
    (decideAndNotify lib cfg env st ref []).result = .ok false ∧
    (decideAndNotify lib cfg env st ref []).trace = [] := by
  constructor <;> rfl

/-- The decision step never throws. -/
theorem decideAndNotify_returns (lib : MomentLib) (cfg : Config) (env : Env) (st : State)
    (ref : Appointment) (cands : List Candidate) :
    ∃ b, (decideAndNotify lib cfg env st ref cands).result = .ok b := by
  cases hs : jsSort compareByDate cands with
  | nil =>
    have : cands = [] := by
      by_contra hne
      exact jsSort_ne_nil _ _ hne hs
    subst this
    exact ⟨false, (decideAndNotify_nil lib cfg env st ref).1⟩
  | cons e rest => exact ⟨_, (decideAndNotify_cons lib cfg env st ref cands e rest hs).1⟩

/-! ## The reference library satisfies the day laws -/

theorem refLib_dayLaws (z : JVal) : refLib.DayLaws z := by
  constructor
  · intro a b h
    show (a + zoneOffset z) / msPerDay ≤ (b + zoneOffset z) / msPerDay
    unfold msPerDay
    omega
  · intro a
    show (a - (a + zoneOffset z) % msPerDay + zoneOffset z) / msPerDay
      = (a + zoneOffset z) / msPerDay
    unfold msPerDay
    omega
  · intro a
    show a - (a + zoneOffset z) % msPerDay ≤ a
    unfold msPerDay
    omega
  · intro a b h
    have h2 : (a + zoneOffset z) / msPerDay = (b + zoneOffset z) / msPerDay := h
    show a - (a + zoneOffset z) % msPerDay = b - (b + zoneOffset z) % msPerDay
    unfold msPerDay at h2 ⊢
    omega

/-! ## C1: the decision is the comparison of calendar days -/

/-- C1: for every reference appointment with a valid date and every non-empty list of
candidates with valid dates, all in the configured timezone, the decision step returns
`true` (EarlierFound) exactly when the minimum calendar day `d` over the candidates is
strictly before the calendar day of the reference. The right-hand side mentions calendar
days only, so no time of day on either side matters, and a minimum on the reference day is
not reported. -/
theorem decideAndNotify_true_iff_min_day_lt (lib : MomentLib) (cfg : Config) (env : Env)
    (st : State) (ref : Appointment) (cands : List Candidate) (r d : Int)
    (hlaws : lib.DayLaws (.str cfg.TIMEZONE))
    (hne : cands ≠ [])
    (hvalid : ∀ c ∈ cands, c.fullDate.isValid = true)
    (hzone : ∀ c ∈ cands, c.fullDate.zone = .str cfg.TIMEZONE)
    (href : ref.fullDate = { ms := some r, zone := .str cfg.TIMEZONE })
    (hmin : IsLeast {x | ∃ c ∈ cands, x = lib.dayOf (.str cfg.TIMEZONE) c.instant} d) :
    (decideAndNotify lib cfg env st ref cands).result = .ok true ↔
      d < lib.dayOf (.str cfg.TIMEZONE) r := by
  obtain ⟨e, rest, hs⟩ : ∃ e rest, jsSort compareByDate cands = e :: rest := by
    cases h : jsSort compareByDate cands with
    | nil => exact absurd h (jsSort_ne_nil _ _ hne)
    | cons e rest => exact ⟨e, rest, rfl⟩
  obtain ⟨hmem, hle⟩ := jsSort_head_min cands hvalid e rest hs
  have hd : d = lib.dayOf (.str cfg.TIMEZONE) e.instant := by
    apply le_antisymm
    · exact hmin.2 ⟨e, hmem, rfl⟩
    · obtain ⟨c, hc, hcd⟩ := hmin.1
      rw [hcd]
      exact hlaws.dayOf_mono _ _ (hle c hc)
  obtain ⟨te, hte⟩ : ∃ te, e.fullDate.ms = some te := by
    have := hvalid e hmem
    unfold Moment.isValid at this
    exact Option.isSome_iff_exists.mp this
  have hinst : e.instant = te := by simp [Candidate.instant, hte]
  rw [(decideAndNotify_cons lib cfg env st ref cands e rest hs).1, isBefore_startOfDay,
    hte, href, hzone e hmem, hd, hinst]
  simp only [Except.ok.injEq, decide_eq_true_eq]
  exact startOfDay_lt_iff lib _ hlaws te r

/-- C1 at the sample inputs: slots on 2025-12-01 and 2025-09-25 against the reference
2025-12-31 are reported as earlier. -/
theorem decideAndNotify_true_iff_min_day_lt_witness :
    (decideAndNotify refLib sampleCfg quietEnv sampleState sampleRef sampleCandidates).result
      = .ok true :=
  (decideAndNotify_true_iff_min_day_lt refLib sampleCfg quietEnv sampleState sampleRef
    sampleCandidates 1767128400000 20356 (refLib_dayLaws _) (by decide) (by decide) (by decide)
    (by decide)
    ⟨⟨sampleCandidates[1], by decide, by decide⟩, by
      rintro x ⟨c, hc, rfl⟩
      have hc2 : c = sampleCandidates[0] ∨ c = sampleCandidates[1] := by
        simpa [sampleCandidates] using hc
      rcases hc2 with h | h <;> subst h <;> decide⟩).mpr (by decide)

/-! ## Lemmas: the orchestrator -/

theorem Run.tryCatch_ok {α : Type} (x : Run α) (h : JsError → Run α) (a : α)
    (hx : x.result = .ok a) :
    (x.tryCatch h).result = .ok a ∧ (x.tryCatch h).trace = x.trace := by
  unfold Run.tryCatch
  rw [hx]
  exact ⟨rfl, rfl⟩

theorem Run.tryCatch_error {α : Type} (x : Run α) (h : JsError → Run α) (e : JsError)
    (hx : x.result = .error e) :
    (x.tryCatch h).result = (h e).result ∧ (x.tryCatch h).trace = x.trace ++ (h e).trace := by
  unfold Run.tryCatch
  rw [hx]
  exact ⟨rfl, rfl⟩

theorem chatTrace_running (cfg : Config) (st : State) (b : Bool) (text : String) :
    chatTrace cfg { st with isRunning := b } text = chatTrace cfg st text := rfl

theorem reportFailure_result (cfg : Config) (env : Env) (st : State) :
    (reportFailure cfg env st).result = .ok false := by
  unfold reportFailure
  refine ((Run.andThen_ok _ _ () ?_).1).trans rfl
  split
  · rfl
  · split
    · exact Run.call_tryCatch_result _ _
    · rfl

theorem reportFailure_trace (cfg : Config) (env : Env) (st : State) :
    (reportFailure cfg env st).trace = chatTrace cfg st diagnosticMessage := by
  have hres : (match st.bot with
      | none => (pure () : Run Unit)
      | some bot =>
        if st.botInitialized && cfg.CHAT_ID ≠ "" then
          (Run.call (.chatSend bot diagnosticMessage)
            (env.botSendMessage bot diagnosticMessage)).tryCatch fun _botError => pure ()
        else pure ()).result = .ok () := by
    split
    · rfl
    · split
      · exact Run.call_tryCatch_result _ _
      · rfl
  unfold reportFailure
  rw [(Run.andThen_ok _ _ () hres).2]
  show _ ++ [] = _
  rw [List.append_nil]
  unfold chatTrace
  cases hb : st.bot with
  | none => rfl
  | some bot =>
    by_cases hi : st.botInitialized = true <;> by_cases hc : cfg.CHAT_ID = "" <;>
      simp [hi, hc, Run.call_tryCatch_trace] <;> rfl

theorem fetchResponse_trace (env : Env) : (fetchResponse env).trace = [Effect.httpPost] := rfl

theorem checkAppointments_busy (lib : MomentLib) (cfg : Config) (env : Env) (st : State)
    (hrun : st.isRunning = true) :
    checkAppointments lib cfg env st = { result := .ok false, state := st, trace := [] } := by
  unfold checkAppointments
  rw [if_pos hrun]

theorem checkAppointments_unset (lib : MomentLib) (cfg : Config) (env : Env) (st : State)
    (hrun : st.isRunning = false) (href : st.currentAppointment = none) :
    checkAppointments lib cfg env st = { result := .ok false, state := st, trace := [] } := by
  unfold checkAppointments
  rw [if_neg (by simp [hrun])]
  split
  · rfl
  · rename_i ref h
    rw [href] at h
    exact absurd h (by simp)

theorem checkAppointments_guarded (lib : MomentLib) (cfg : Config) (env : Env) (st : State)
    (ref : Appointment) (hrun : st.isRunning = false)
    (href : st.currentAppointment = some ref) :
    checkAppointments lib cfg env st =
      { result := (((fetchResponse env).andThen fun data =>
            compareAndNotify lib cfg env { st with isRunning := true } ref data.toText).tryCatch
            fun _error => reportFailure cfg env { st with isRunning := true }).result,
        state := { st with isRunning := false },
        trace := (((fetchResponse env).andThen fun data =>
            compareAndNotify lib cfg env { st with isRunning := true } ref data.toText).tryCatch
            fun _error => reportFailure cfg env { st with isRunning := true }).trace } := by
  unfold checkAppointments
  rw [if_neg (by simp [hrun])]
  split
  · rename_i h
    rw [href] at h
    exact absurd h (by simp)
  · rename_i ref2 h
    rw [href] at h
    cases h
    rfl

/-- A call that passes both guards and receives a truthy `response.data`: the decision step
runs on the candidates parsed from its text and its outcome is the outcome of the call. -/
theorem checkAppointments_response (lib : MomentLib) (cfg : Config) (env : Env) (st : State)
    (ref : Appointment) (status : Nat) (statusText : String) (data : ResponseData)
    (hrun : st.isRunning = false) (href : st.currentAppointment = some ref)
    (hfetch : env.httpPost = .response status statusText data)
    (hdata : data.truthy = true) :
    (checkAppointments lib cfg env st).result =
      (decideAndNotify lib cfg env { st with isRunning := true } ref
        (extractAppointments lib cfg data.toText)).result ∧
    (checkAppointments lib cfg env st).trace =
      Effect.httpPost :: (decideAndNotify lib cfg env { st with isRunning := true } ref
        (extractAppointments lib cfg data.toText)).trace ∧
    (checkAppointments lib cfg env st).state = { st with isRunning := false } := by
  have hf : (fetchResponse env).result = .ok data := by
    unfold fetchResponse
    simp [hfetch, hdata]
  obtain ⟨b, hb⟩ := decideAndNotify_returns lib cfg env { st with isRunning := true } ref
    (extractAppointments lib cfg data.toText)
  obtain ⟨r1, t1⟩ := Run.andThen_ok (fetchResponse env)
    (fun data => compareAndNotify lib cfg env { st with isRunning := true } ref data.toText)
    data hf
  have r2 : ((fetchResponse env).andThen fun data =>
      compareAndNotify lib cfg env { st with isRunning := true } ref data.toText).result
        = .ok b :=
    r1.trans hb
  obtain ⟨r3, t3⟩ := Run.tryCatch_ok _
    (fun _error => reportFailure cfg env { st with isRunning := true }) b r2
  rw [checkAppointments_guarded lib cfg env st ref hrun href]
  exact ⟨r3.trans hb.symm, t3.trans t1, rfl⟩

/-- A call that passes both guards and whose request step throws: the outer `catch` attempts
the diagnostic message on the chat channel and the call returns `false`. -/
theorem checkAppointments_fetch_error (lib : MomentLib) (cfg : Config) (env : Env) (st : State)
    (ref : Appointment) (e : JsError)
    (hrun : st.isRunning = false) (href : st.currentAppointment = some ref)
    (hf : (fetchResponse env).result = .error e) :
    (checkAppointments lib cfg env st).result = .ok false ∧
    (checkAppointments lib cfg env st).trace =
      Effect.httpPost :: chatTrace cfg st diagnosticMessage ∧
    (checkAppointments lib cfg env st).state = { st with isRunning := false } := by
  obtain ⟨r1, t1⟩ := Run.andThen_error (fetchResponse env)
    (fun data => compareAndNotify lib cfg env { st with isRunning := true } ref data.toText)
    e hf
  obtain ⟨r3, t3⟩ := Run.tryCatch_error _
    (fun _error => reportFailure cfg env { st with isRunning := true }) e r1
  rw [checkAppointments_guarded lib cfg env st ref hrun href]
  refine ⟨r3.trans (reportFailure_result _ _ _), ?_, rfl⟩
  refine t3.trans ?_
  rw [t1, reportFailure_trace, chatTrace_running]
  rfl

theorem Run.andThen_forall {α β : Type} (P : Effect → Prop) (x : Run α) (f : α → Run β)
    (hx : ∀ e ∈ x.trace, P e) (hf : ∀ a, ∀ e ∈ (f a).trace, P e) :
    ∀ e ∈ (x.andThen f).trace, P e := by
  intro e he
  unfold Run.andThen at he
  cases hr : x.result with
  | ok a =>
    rw [hr] at he
    rcases List.mem_append.mp he with h | h
    · exact hx e h
    · exact hf a e h
  | error err =>
    rw [hr] at he
    exact hx e he

theorem Run.tryCatch_forall {α : Type} (P : Effect → Prop) (x : Run α) (h : JsError → Run α)
    (hx : ∀ e ∈ x.trace, P e) (hh : ∀ err, ∀ e ∈ (h err).trace, P e) :
    ∀ e ∈ (x.tryCatch h).trace, P e := by
  intro e he
  unfold Run.tryCatch at he
  cases hr : x.result with
  | ok a =>
    rw [hr] at he
    exact hx e he
  | error err =>
    rw [hr] at he
    rcases List.mem_append.mp he with h1 | h1
    · exact hx e h1
    · exact hh err e h1

theorem Run.pure_forall {α : Type} (P : Effect → Prop) (a : α) :
    ∀ e ∈ (pure a : Run α).trace, P e := by
  intro e he
  exact absurd he (List.not_mem_nil e)

theorem chatTrace_no_store (cfg : Config) (st : State) (text : String) :
    ∀ e ∈ chatTrace cfg st text, e.isStoreAccess = false := by
  intro e he
  unfold chatTrace at he
  split at he
  · split at he
    · rw [List.mem_singleton] at he
      rw [he]; rfl
    · exact absurd he (List.not_mem_nil e)
  · exact absurd he (List.not_mem_nil e)

theorem decideAndNotify_no_store (lib : MomentLib) (cfg : Config) (env : Env) (st : State)
    (ref : Appointment) (cands : List Candidate) :
    ∀ e ∈ (decideAndNotify lib cfg env st ref cands).trace, e.isStoreAccess = false := by
  intro e he
  cases hs : jsSort compareByDate cands with
  | nil =>
    have : cands = [] := by
      by_contra hne
      exact jsSort_ne_nil _ _ hne hs
    subst this
    rw [(decideAndNotify_nil lib cfg env st ref).2] at he
    exact absurd he (List.not_mem_nil e)
  | cons c rest =>
    rw [(decideAndNotify_cons lib cfg env st ref cands c rest hs).2, sendMessage_trace,
      sendMessage_trace, sendEmailNotification_trace, sendPushNotification_trace] at he
    split at he
    · rcases List.mem_append.mp he with h | h
      · exact chatTrace_no_store _ _ _ e h
      · rcases List.mem_append.mp h with h | h
        · split at h
          · rw [List.mem_singleton] at h
            rw [h]; rfl
          · exact absurd h (List.not_mem_nil e)
        · split at h
          · rw [List.mem_singleton] at h
            rw [h]; rfl
          · exact absurd h (List.not_mem_nil e)
    · exact chatTrace_no_store _ _ _ e he

theorem fetchResponse_result (env : Env) :
    (fetchResponse env).result =
      match env.httpPost with
      | .response _ _ data =>
        if !data.truthy then
          .error ⟨requestErrorMessage false none none false "Empty response from server"⟩
        else .ok data
      | .cancelled => .error ⟨requestErrorMessage true none none false ""⟩
      | .failed code response request message =>
        .error ⟨requestErrorMessage false code response request message⟩ := rfl

/-! ## C2: the two guards -/

/-- C2: when a check is already in progress or no reference appointment is set,
`checkAppointments` returns `false`, makes no external call at all (no HTTP request, no send
on any channel) and leaves the whole state as it was; a call skipped as busy leaves
`isRunning` set. -/
theorem checkAppointments_skipped (lib : MomentLib) (cfg : Config) (env : Env) (st : State)
    (h : st.isRunning = true ∨ st.currentAppointment = none) :
    (checkAppointments lib cfg env st).result = .ok false ∧
    (checkAppointments lib cfg env st).trace = [] ∧
    (checkAppointments lib cfg env st).state = st ∧
    (st.isRunning = true → (checkAppointments lib cfg env st).state.isRunning = true) := by
  have hout : checkAppointments lib cfg env st =
      { result := .ok false, state := st, trace := [] } := by
    rcases h with h | h
    · exact checkAppointments_busy lib cfg env st h
    · cases hrun : st.isRunning with
      | true => exact checkAppointments_busy lib cfg env st hrun
      | false => exact checkAppointments_unset lib cfg env st hrun h
  rw [hout]
  exact ⟨rfl, rfl, rfl, fun h2 => h2⟩

/-- C2 at a state with a check in progress, in a world where everything fails. -/
theorem checkAppointments_skipped_witness :
    (checkAppointments refLib sampleCfg hostileEnv busyState).result = .ok false ∧
    (checkAppointments refLib sampleCfg hostileEnv busyState).trace = [] ∧
    (checkAppointments refLib sampleCfg hostileEnv busyState).state = busyState ∧
    (busyState.isRunning = true →
      (checkAppointments refLib sampleCfg hostileEnv busyState).state.isRunning = true) :=
  checkAppointments_skipped refLib sampleCfg hostileEnv busyState (Or.inl rfl)

/-! ## C3: the call always returns and releases the guard -/

/-- C3: a call that passes both guards returns normally (its promise is fulfilled, never
rejected) and `isRunning` is `false` afterwards, whatever the request, the parser and each
send do. -/
theorem checkAppointments_returns_and_releases (lib : MomentLib) (cfg : Config) (env : Env)
    (st : State) (ref : Appointment)
    (hrun : st.isRunning = false) (href : st.currentAppointment = some ref) :
    (∃ b, (checkAppointments lib cfg env st).result = .ok b) ∧
    (checkAppointments lib cfg env st).state.isRunning = false := by
  rw [checkAppointments_guarded lib cfg env st ref hrun href]
  refine ⟨?_, rfl⟩
  cases hx : ((fetchResponse env).andThen fun data =>
      compareAndNotify lib cfg env { st with isRunning := true } ref data.toText).result with
  | ok b => exact ⟨b, (Run.tryCatch_ok _ _ b hx).1⟩
  | error e =>
    exact ⟨false, ((Run.tryCatch_error _ _ e hx).1).trans (reportFailure_result _ _ _)⟩

/-- C3 at the sample state, in a world where the request and every send fail. -/
theorem checkAppointments_returns_and_releases_witness :
    (∃ b, (checkAppointments refLib sampleCfg hostileEnv sampleState).result = .ok b) ∧
    (checkAppointments refLib sampleCfg hostileEnv sampleState).state.isRunning = false :=
  checkAppointments_returns_and_releases refLib sampleCfg hostileEnv sampleState sampleRef
    rfl rfl

/-! ## C4: the check path never writes the reference -/

/-- C4: after every call of `checkAppointments`, whatever its outcome, the reference
appointment held in `state` is the one held before (same object fields, same date instant:
the day truncation of line 478 works on a clone), and the call never touches the appointment
file, so `saveAppointment` is not invoked. -/
theorem checkAppointments_preserves_reference (lib : MomentLib) (cfg : Config) (env : Env)
    (st : State) :
    (checkAppointments lib cfg env st).state.currentAppointment = st.currentAppointment ∧
    ∀ e ∈ (checkAppointments lib cfg env st).trace, e.isStoreAccess = false := by
  cases hrun : st.isRunning with
  | true =>
    rw [checkAppointments_busy lib cfg env st hrun]
    exact ⟨rfl, fun e he => absurd he (List.not_mem_nil e)⟩
  | false =>
    cases href : st.currentAppointment with
    | none =>
      rw [checkAppointments_unset lib cfg env st hrun href]
      exact ⟨href, fun e he => absurd he (List.not_mem_nil e)⟩
    | some ref =>
      rw [checkAppointments_guarded lib cfg env st ref hrun href]
      refine ⟨href, ?_⟩
      apply Run.tryCatch_forall
      · apply Run.andThen_forall
        · intro e he
          rw [fetchResponse_trace, List.mem_singleton] at he
          rw [he]; rfl
        · intro html
          exact decideAndNotify_no_store _ _ _ _ _ _
      · intro err e he
        rw [reportFailure_trace] at he
        exact chatTrace_no_store _ _ _ e he

/-! ## Lemmas: what the parser and the sort hand to the decision step -/

theorem extractAppointments_empty (lib : MomentLib) (cfg : Config) :
    extractAppointments lib cfg "" = [] := rfl

theorem insertSorted_mem (cmp : Candidate → Candidate → Int) (a x : Candidate)
    (l : List Candidate) : x ∈ insertSorted cmp a l ↔ x = a ∨ x ∈ l := by
  induction l with
  | nil => simp [insertSorted]
  | cons b l ih =>
    unfold insertSorted
    split
    · simp
    · rw [List.mem_cons, ih, List.mem_cons]
      tauto

theorem jsSort_mem (cmp : Candidate → Candidate → Int) (x : Candidate) (l : List Candidate) :
    x ∈ jsSort cmp l ↔ x ∈ l := by
  induction l with
  | nil => simp [jsSort]
  | cons a l ih =>
    unfold jsSort
    rw [insertSorted_mem, ih, List.mem_cons]

theorem extractLoop_zone (lib : MomentLib) (cfg : Config) (fuel : Nat) (s : List Char) :
    ∀ c ∈ extractLoop lib cfg fuel s, c.fullDate.zone = .str cfg.TIMEZONE := by
  induction fuel generalizing s with
  | zero =>
    intro c hc
    simp [extractLoop] at hc
  | succ n ih =>
    intro c hc
    unfold extractLoop at hc
    split at hc
    · simp at hc
    · rcases List.mem_cons.mp hc with h | h
      · rw [h]; rfl
      · exact ih _ c h

/-- Every parsed candidate carries the configured timezone. -/
theorem extractAppointments_zone (lib : MomentLib) (cfg : Config) (html : String) :
    ∀ c ∈ extractAppointments lib cfg html, c.fullDate.zone = .str cfg.TIMEZONE :=
  extractLoop_zone lib cfg _ _

theorem chatTrace_ready (cfg : Config) (st : State) (bot : Nat) (text : String)
    (hbot : st.bot = some bot) (hinit : st.botInitialized = true) (hchat : cfg.CHAT_ID ≠ "") :
    chatTrace cfg st text = [Effect.chatSend bot text] := by
  unfold chatTrace
  rw [hbot]
  simp [hinit, hchat]

/-- A call that passes both guards starts with the HTTP request. -/
theorem checkAppointments_guarded_head (lib : MomentLib) (cfg : Config) (env : Env)
    (st : State) (ref : Appointment) (hrun : st.isRunning = false)
    (href : st.currentAppointment = some ref) :
    ∃ t, (checkAppointments lib cfg env st).trace = Effect.httpPost :: t := by
  cases hf : (fetchResponse env).result with
  | error e =>
    exact ⟨_, (checkAppointments_fetch_error lib cfg env st ref e hrun href hf).2.1⟩
  | ok data =>
    rw [fetchResponse_result] at hf
    cases hp : env.httpPost with
    | cancelled => rw [hp] at hf; simp at hf
    | failed code response request message => rw [hp] at hf; simp at hf
    | response status statusText body =>
      rw [hp] at hf
      cases hb : body.truthy with
      | false => simp [hb] at hf
      | true =>
        exact ⟨_, (checkAppointments_response lib cfg env st ref status statusText body hrun
          href hp hb).2.1⟩

/-- A `response.data` from whose text the parser extracts a candidate is truthy: the falsy
values have the texts ``, `null`, `false` and `0`, which hold no label. -/
theorem data_truthy_of_sorted (lib : MomentLib) (cfg : Config) (data : ResponseData)
    (e : Candidate) (rest : List Candidate)
    (hs : jsSort compareByDate (extractAppointments lib cfg data.toText) = e :: rest) :
    data.truthy = true := by
  have hnil : ∀ text : String, extractAppointments lib cfg text = [] →
      data.toText = text → False := by
    intro text h1 h2
    rw [h2, h1] at hs
    simp [jsSort] at hs
  cases data with
  | text s =>
    by_cases h : s = ""
    · exact absurd rfl (fun h2 => hnil "" rfl (by rw [← h]; exact h2))
    · simp [ResponseData.truthy, h]
  | null => exact absurd rfl (fun h2 => hnil "null" rfl h2)
  | bool b =>
    cases b with
    | true => rfl
    | false => exact absurd rfl (fun h2 => hnil "false" rfl h2)
  | number n =>
    by_cases h : n = 0
    · subst h
      exact absurd rfl (fun h2 => hnil "0" rfl h2)
    · simp [ResponseData.truthy, h]
  | compound shown => rfl

/-! ## C8: the fan-out of the found branch -/

/-- C8: when a check decides EarlierFound (the day of the earliest candidate `e` is before
the day of the reference, line 482), then whatever each send settles with (`env` is
arbitrary): the call returns `true`, so no exception escaped the fan-out, and after the
HTTP request the external calls are exactly one chat send if the chat channel is ready, then
exactly one mail send if email is enabled, then exactly one push request if push is enabled.
A rejected send therefore never prevents a later one. -/
theorem checkAppointments_found_fanout (lib : MomentLib) (cfg : Config) (env : Env)
    (st : State) (ref : Appointment) (status : Nat) (statusText : String)
    (data : ResponseData) (e : Candidate) (rest : List Candidate)
    (hrun : st.isRunning = false) (href : st.currentAppointment = some ref)
    (hfetch : env.httpPost = .response status statusText data)
    (hs : jsSort compareByDate (extractAppointments lib cfg data.toText) = e :: rest)
    (hearlier : (e.fullDate.clone.startOfDay lib).isBefore
      (ref.fullDate.clone.startOfDay lib) = true) :
    (checkAppointments lib cfg env st).result = .ok true ∧
    (checkAppointments lib cfg env st).trace =
      Effect.httpPost :: (chatTrace cfg st (foundMessage lib e) ++
        ((if cfg.enableEmail then
            [Effect.mailSend "Earlier Appointment Found!" (foundMessage lib e)] else []) ++
         (if cfg.enablePushbullet then
            [Effect.pushSend "Earlier Appointment Found!" (foundPushBody lib e)] else []))) := by
  have hdata := data_truthy_of_sorted lib cfg data e rest hs
  obtain ⟨hr, ht, _⟩ := checkAppointments_response lib cfg env st ref status statusText data
    hrun href hfetch hdata
  obtain ⟨dr, dt⟩ := decideAndNotify_cons lib cfg env { st with isRunning := true } ref
    (extractAppointments lib cfg data.toText) e rest hs
  rw [hearlier] at dr
  rw [hearlier, if_pos rfl, sendMessage_trace, sendEmailNotification_trace,
    sendPushNotification_trace, chatTrace_running] at dt
  exact ⟨hr.trans dr, ht.trans (by rw [dt])⟩

set_option maxRecDepth 100000 in
/-- C8 on `samplePage` against the reference 2025-12-31, with every send rejected: the three
channels are each attempted once, in order, and the call returns `true`. -/
theorem checkAppointments_found_fanout_witness :
    (checkAppointments refLib sampleCfg foundEnv sampleState).result = .ok true ∧
    (checkAppointments refLib sampleCfg foundEnv sampleState).trace =
      [ Effect.httpPost,
        Effect.chatSend 1 (foundMessage refLib septemberSlot),
        Effect.mailSend "Earlier Appointment Found!" (foundMessage refLib septemberSlot),
        Effect.pushSend "Earlier Appointment Found!" (foundPushBody refLib septemberSlot) ] :=
  checkAppointments_found_fanout refLib sampleCfg foundEnv sampleState sampleRef 200 "OK"
    (.text samplePage) septemberSlot (sampleCandidates.take 1) rfl rfl rfl (by decide)
    (by decide)

/-! ## C9: the informational branch -/

/-- C9 (amended): when the candidate list is non-empty, the reference is in the configured
timezone, and the calendar day of the earliest candidate `e` is not strictly before the day
of the reference (which is so in particular when either date is invalid), the call returns
`false`; after the HTTP request its only external call is one chat send of the
informational message when the chat channel is ready (none otherwise); the message names
the reference date and the date and label of the earliest slot; and the reference in
`state` is unchanged. -/
theorem checkAppointments_not_earlier (lib : MomentLib) (cfg : Config) (env : Env)
    (st : State) (ref : Appointment) (status : Nat) (statusText : String)
    (data : ResponseData) (e : Candidate) (rest : List Candidate)
    (hlaws : lib.DayLaws (.str cfg.TIMEZONE))
    (hrun : st.isRunning = false) (href : st.currentAppointment = some ref)
    (hfetch : env.httpPost = .response status statusText data)
    (hs : jsSort compareByDate (extractAppointments lib cfg data.toText) = e :: rest)
    (hzone : ref.fullDate.zone = .str cfg.TIMEZONE)
    (hday : ∀ t r, e.fullDate.ms = some t → ref.fullDate.ms = some r →
      ¬ lib.dayOf (.str cfg.TIMEZONE) t < lib.dayOf (.str cfg.TIMEZONE) r) :
    (checkAppointments lib cfg env st).result = .ok false ∧
    (checkAppointments lib cfg env st).trace =
      Effect.httpPost :: chatTrace cfg st (infoMessage lib ref e) ∧
    (∀ bot, st.bot = some bot → st.botInitialized = true → cfg.CHAT_ID ≠ "" →
      (checkAppointments lib cfg env st).trace =
        [Effect.httpPost, Effect.chatSend bot (infoMessage lib ref e)]) ∧
    infoMessage lib ref e =
      ("ℹ️ No appointments found earlier than your set date of *" ++
        ref.fullDate.format lib "YYYY-MM-DD" ++ "*.\n\n") ++
      ("The earliest appointment currently available on the website is on *" ++
        e.fullDate.format lib "dddd, MMMM Do, YYYY" ++ "* at *" ++ e.time ++ "*.") ∧
    (checkAppointments lib cfg env st).state.currentAppointment = st.currentAppointment := by
  have hdata := data_truthy_of_sorted lib cfg data e rest hs
  obtain ⟨hres, htr, hst⟩ := checkAppointments_response lib cfg env st ref status statusText
    data hrun href hfetch hdata
  obtain ⟨dr, dt⟩ := decideAndNotify_cons lib cfg env { st with isRunning := true } ref
    (extractAppointments lib cfg data.toText) e rest hs
  have hmem : e ∈ extractAppointments lib cfg data.toText := by
    rw [← jsSort_mem compareByDate, hs]
    exact List.mem_cons_self _ _
  have hz := extractAppointments_zone lib cfg data.toText e hmem
  have hnot : (e.fullDate.clone.startOfDay lib).isBefore (ref.fullDate.clone.startOfDay lib)
      = false := by
    rw [isBefore_startOfDay]
    cases hte : e.fullDate.ms with
    | none => rfl
    | some t =>
      cases hre : ref.fullDate.ms with
      | none => rfl
      | some r =>
        simp only [decide_eq_false_iff_not]
        rw [hz, hzone, startOfDay_lt_iff lib _ hlaws]
        exact hday t r hte hre
  rw [hnot] at dr
  rw [hnot] at dt
  simp only [Bool.false_eq_true, if_false] at dt
  rw [sendMessage_trace, chatTrace_running] at dt
  have htrace : (checkAppointments lib cfg env st).trace =
      Effect.httpPost :: chatTrace cfg st (infoMessage lib ref e) := htr.trans (by rw [dt])
  refine ⟨hres.trans dr, htrace, ?_, rfl, ?_⟩
  · intro bot hbot hinit hchat
    rw [htrace, chatTrace_ready cfg st bot _ hbot hinit hchat]
  · rw [hst]

set_option maxRecDepth 100000 in
/-- C9 (amended) on `latePage` (a single slot on 2026-01-15) against the reference
2025-12-31. -/
theorem checkAppointments_not_earlier_witness :
    (checkAppointments refLib sampleCfg lateEnv sampleState).result = .ok false ∧
    (checkAppointments refLib sampleCfg lateEnv sampleState).trace =
      [Effect.httpPost, Effect.chatSend 1 (infoMessage refLib sampleRef januarySlot)] ∧
    (checkAppointments refLib sampleCfg lateEnv sampleState).state.currentAppointment
      = some sampleRef :=
  have h := checkAppointments_not_earlier refLib sampleCfg lateEnv sampleState sampleRef 200
    "OK" (.text latePage) januarySlot [] (refLib_dayLaws _) rfl rfl rfl (by decide) rfl
    (by
      intro t r ht hr
      have h1 : januarySlot.fullDate.ms = some 1768454100000 := by decide
      have h2 : sampleRef.fullDate.ms = some 1767128400000 := by decide
      rw [h1] at ht
      rw [h2] at hr
      rw [← Option.some.inj ht, ← Option.some.inj hr]
      decide)
  ⟨h.1, h.2.2.1 1 rfl rfl (by decide), h.2.2.2.2⟩

set_option maxRecDepth 100000 in
/-- C9 as stated fails: with the configured timezone `America/Bogota` and a reference
loaded from a record saved under `Asia/Tokyo`, the page lists one slot, which falls on the
same calendar day as the reference both in the reference's timezone and in the configured
one, so its day is not strictly before the reference's; the check returns `true` and sends
the found message, not the informational one. -/
theorem checkAppointments_not_earlier_zone_counterexample :
    tokyoState.currentAppointment = some tokyoLoaded ∧
    jsSort compareByDate (extractAppointments refLib bogotaCfg bogotaPage) = [bogotaSlot] ∧
    refLib.dayOf (.str "Asia/Tokyo") 1767110400000
      = refLib.dayOf (.str "Asia/Tokyo") 1767106800000 ∧
    refLib.dayOf (.str "America/Bogota") 1767110400000
      = refLib.dayOf (.str "America/Bogota") 1767106800000 ∧
    (checkAppointments refLib bogotaCfg bogotaEnv tokyoState).result = .ok true ∧
    (checkAppointments refLib bogotaCfg bogotaEnv tokyoState).trace.take 2 =
      [Effect.httpPost, Effect.chatSend 1 (foundMessage refLib bogotaSlot)] := by
  refine ⟨rfl, by decide, by decide, by decide, rfl, by decide⟩

/-! ## C10: a failed request -/

/-- C10: when the request is cancelled (timeout or abort) or fails at transport level
(connection refused, no response, any other rejection), the call returns `false`; after the
HTTP request its only external call is one chat send of the diagnostic message when the
chat channel is ready, and none on the email or push channel; this holds whatever that send
settles with; `isRunning` is `false` on return, and a next call on the resulting state
passes the busy guard (it issues the HTTP request). -/
theorem checkAppointments_fetch_failure (lib : MomentLib) (cfg : Config) (env : Env)
    (st : State) (ref : Appointment)
    (hrun : st.isRunning = false) (href : st.currentAppointment = some ref)
    (hfail : env.httpPost = .cancelled ∨
      ∃ code response request message,
        env.httpPost = .failed code response request message) :
    (checkAppointments lib cfg env st).result = .ok false ∧
    (checkAppointments lib cfg env st).trace =
      Effect.httpPost :: chatTrace cfg st diagnosticMessage ∧
    (∀ bot, st.bot = some bot → st.botInitialized = true → cfg.CHAT_ID ≠ "" →
      (checkAppointments lib cfg env st).trace =
        [Effect.httpPost, Effect.chatSend bot diagnosticMessage]) ∧
    (checkAppointments lib cfg env st).state.isRunning = false ∧
    (∀ env2, ∃ rest, (checkAppointments lib cfg env2
        (checkAppointments lib cfg env st).state).trace = Effect.httpPost :: rest) := by
  obtain ⟨err, herr⟩ : ∃ err, (fetchResponse env).result = .error err := by
    rw [fetchResponse_result]
    rcases hfail with h | ⟨code, response, request, message, h⟩
    · rw [h]; exact ⟨_, rfl⟩
    · rw [h]; exact ⟨_, rfl⟩
  obtain ⟨hres, htr, hst⟩ := checkAppointments_fetch_error lib cfg env st ref err hrun href herr
  refine ⟨hres, htr, ?_, ?_, ?_⟩
  · intro bot hbot hinit hchat
    rw [htr, chatTrace_ready cfg st bot _ hbot hinit hchat]
  · rw [hst]
  · intro env2
    rw [hst]
    exact checkAppointments_guarded_head lib cfg env2 { st with isRunning := false } ref rfl
      href

/-- C10 when the abort signal cancels the request and the diagnostic send itself is
rejected. -/
theorem checkAppointments_fetch_failure_witness :
    (checkAppointments refLib sampleCfg timeoutEnv sampleState).result = .ok false ∧
    (checkAppointments refLib sampleCfg timeoutEnv sampleState).trace =
      [Effect.httpPost, Effect.chatSend 1 diagnosticMessage] ∧
    (checkAppointments refLib sampleCfg timeoutEnv sampleState).state.isRunning = false :=
  have h := checkAppointments_fetch_failure refLib sampleCfg timeoutEnv sampleState sampleRef
    rfl rfl (Or.inl rfl)
  ⟨h.1, h.2.2.1 1 rfl rfl (by decide), h.2.2.2.1⟩

/-! ## C5: save followed by load -/

theorem saveAppointment_disk (lib : MomentLib) (cfg : Config) (env : Env) (disk : Disk)
    (appt : Appointment)
    (hsaved : (saveAppointment lib cfg env disk (some appt)).1.result = .ok true) :
    (saveAppointment lib cfg env disk (some appt)).2 =
      { file := some (.json (.record (stringifyRecord (savedRecord lib cfg env appt)))) } := by
  unfold saveAppointment at hsaved ⊢
  simp only at hsaved ⊢
  rw [hsaved]
  rfl

theorem getField_savedRecord_fullDate (lib : MomentLib) (cfg : Config) (env : Env)
    (appt : Appointment) (t : Int) (ht : appt.fullDate.ms = some t) :
    getField (stringifyRecord (savedRecord lib cfg env appt)) "fullDate"
      = .str (lib.toISOString t) := by
  simp [getField, stringifyRecord, savedRecord, ht, List.filter, List.lookup]

theorem getField_savedRecord_timezone (lib : MomentLib) (cfg : Config) (env : Env)
    (appt : Appointment) (t : Int) (ht : appt.fullDate.ms = some t) :
    getField (stringifyRecord (savedRecord lib cfg env appt)) "timezone"
      = .str cfg.TIMEZONE := by
  cases h1 : (appt.time != JVal.undefined) <;>
    cases h2 : (appt.originalString != JVal.undefined) <;>
    simp [getField, stringifyRecord, savedRecord, ht, List.filter, List.lookup, h1, h2]

/-- C5: for every appointment with a valid date that the program saves (the only call of
`saveAppointment`, line 673, passes an appointment built with `timezone: CONFIG.TIMEZONE`,
line 670), if `saveAppointment` returns `true` then a later `loadAppointment` (after a
restart too: other configuration `cfg2`, other world `env2`) that can read the file returns
an appointment whose date is the same instant and whose timezone is the timezone of the
appointment that was saved. The date library is asked to read back the ISO text it printed
for this instant. -/
theorem save_then_load (lib : MomentLib) (cfg cfg2 : Config) (env env2 : Env) (disk : Disk)
    (appt : Appointment) (t : Int)
    (hvalid : appt.fullDate.ms = some t)
    (happt : appt.timezone = .str cfg.TIMEZONE)
    (hsaved : (saveAppointment lib cfg env disk (some appt)).1.result = .ok true)
    (htz : cfg.TIMEZONE ≠ "")
    (hread : env2.readFile = none)
    (htext : lib.toISOString t ≠ "")
    (hiso : lib.parseAuto (.str (lib.toISOString t)) (.str cfg.TIMEZONE) = .ok (some t)) :
    ∃ loaded,
      (loadAppointment lib cfg2 env2
        (saveAppointment lib cfg env disk (some appt)).2).result = .ok (some loaded) ∧
      loaded.fullDate.ms = appt.fullDate.ms ∧
      loaded.timezone = appt.timezone ∧
      loaded.fullDate.zone = appt.timezone := by
  rw [saveAppointment_disk lib cfg env disk appt hsaved]
  have hd := getField_savedRecord_fullDate lib cfg env appt t hvalid
  have hz := getField_savedRecord_timezone lib cfg env appt t hvalid
  have hzone : (JVal.str cfg.TIMEZONE).or (.str cfg2.TIMEZONE) = .str cfg.TIMEZONE := by
    simp [JVal.or, JVal.truthy, htz]
  unfold loadAppointment
  simp only [hread, hd, hz, hzone, hiso]
  simp only [Run.call, Run.andThen, Run.tryCatch, JVal.truthy, htext, Moment.isValid,
    Run.pure_result, Run.pure_trace, decide_True, decide_not, Bool.not_false, Bool.not_true,
    Option.isSome_some, decide_False, ne_eq, not_false_eq_true, if_true, if_false,
    Bool.false_eq_true]
  exact ⟨_, rfl, hvalid.symm, happt.symm, happt.symm⟩

/-- C5 for the reference that `/set 2026-02-01` builds, saved to an empty store. -/
theorem save_then_load_witness :
    ∃ loaded,
      (loadAppointment refLib sampleCfg quietEnv
        (saveAppointment refLib sampleCfg quietEnv emptyDisk
          (some februaryReference)).2).result = .ok (some loaded) ∧
      loaded.fullDate.ms = februaryReference.fullDate.ms ∧
      loaded.timezone = februaryReference.timezone ∧
      loaded.fullDate.zone = februaryReference.timezone :=
  save_then_load refLib sampleCfg sampleCfg quietEnv quietEnv emptyDisk februaryReference
    1769893200000 (by decide) rfl rfl (by decide) rfl (by decide) rfl

/-! ## Lemmas: the regular expression -/

theorem mem_matchLit (lit s r : List Char) : r ∈ matchLit lit s ↔ s = lit ++ r := by
  induction lit generalizing s with
  | nil => simp [matchLit, eq_comm]
  | cons p ps ih =>
    cases s with
    | nil => simp [matchLit]
    | cons c cs =>
      unfold matchLit
      by_cases h : p = c
      · subst h
        simp [ih]
      · simp [h]
        intro hc
        exact absurd hc.symm h

theorem mem_runs (p : Char → Bool) (s t r : List Char) :
    (t, r) ∈ runs p s ↔ s = t ++ r ∧ ∀ c ∈ t, p c = true := by
  induction s generalizing t with
  | nil =>
    simp only [runs, List.mem_singleton, Prod.mk.injEq]
    constructor
    · rintro ⟨rfl, rfl⟩
      simp
    · rintro ⟨h, _⟩
      have := List.append_eq_nil.mp h.symm
      exact this
  | cons c cs ih =>
    simp only [runs, List.mem_cons, Prod.mk.injEq]
    constructor
    · rintro (⟨rfl, rfl⟩ | h)
      · simp
      · by_cases hp : p c = true
        · rw [if_pos hp, List.mem_map] at h
          obtain ⟨⟨t0, r0⟩, hx, hx2⟩ := h
          simp only [Prod.mk.injEq] at hx2
          obtain ⟨rfl, rfl⟩ := hx2
          obtain ⟨h1, h2⟩ := (ih t0).mp hx
          refine ⟨by rw [h1]; rfl, ?_⟩
          intro d hd
          rcases List.mem_cons.mp hd with hd | hd
          · rw [hd]; exact hp
          · exact h2 d hd
        · rw [if_neg hp] at h
          exact absurd h (List.not_mem_nil _)
    · rintro ⟨h1, h2⟩
      cases t with
      | nil => left; exact ⟨rfl, by simpa using h1.symm⟩
      | cons d t0 =>
        right
        have hcd : c = d ∧ cs = t0 ++ r := by simpa using h1
        obtain ⟨rfl, hcs⟩ := hcd
        have hp : p c = true := h2 c (List.mem_cons_self _ _)
        rw [if_pos hp, List.mem_map]
        exact ⟨(t0, r), (ih t0).mpr ⟨hcs, fun x hx => h2 x (List.mem_cons_of_mem _ hx)⟩, rfl⟩

/-- What a match of the regular expression at the head of the input looks like. -/
theorem mem_matchHere (s g1 g2 r6 : List Char) :
    (g1, g2, r6) ∈ matchHere s ↔
      ∃ w1 w2, s = labelOpen ++ g1 ++ labelMid ++ (w1 ++ g2 ++ w2) ++ labelClose ++ r6 ∧
        g1 ≠ [] ∧ (∀ c ∈ g1, c ≠ Char.ofNat 34) ∧ (∀ c ∈ w1, isJsSpace c = true) ∧
        g2 ≠ [] ∧ (∀ c ∈ g2, c ≠ '<') ∧ (∀ c ∈ w2, isJsSpace c = true) := by
  unfold matchHere
  simp only [List.mem_flatMap, List.mem_map, starGreedy, plusGreedy, plusLazy,
    List.mem_reverse, List.mem_filter, Prod.exists, mem_runs, mem_matchLit, Prod.mk.injEq]
  constructor
  · rintro ⟨r0, h0, a1, b1, ⟨⟨h1, h1p⟩, h1n⟩, r2, h2, w1, b3, ⟨h3, h3p⟩, a4, b4,
      ⟨⟨h4, h4p⟩, h4n⟩, w2, b5, ⟨h5, h5p⟩, r, h6, rfl, rfl, rfl⟩
    refine ⟨w1, w2, ?_, ?_, ?_, h3p, ?_, ?_, h5p⟩
    · rw [h0, h1, h2, h3, h4, h5, h6]
      simp [List.append_assoc]
    · simpa using h1n
    · intro c hc
      simpa using h1p c hc
    · simpa using h4n
    · intro c hc
      simpa using h4p c hc
  · rintro ⟨w1, w2, hs, hg1, hq, hw1, hg2, hlt, hw2⟩
    refine ⟨g1 ++ labelMid ++ (w1 ++ g2 ++ w2) ++ labelClose ++ r6, ?_, g1,
      labelMid ++ (w1 ++ g2 ++ w2) ++ labelClose ++ r6, ⟨⟨?_, ?_⟩, ?_⟩,
      (w1 ++ g2 ++ w2) ++ labelClose ++ r6, ?_, w1, g2 ++ w2 ++ labelClose ++ r6, ⟨?_, hw1⟩,
      g2, w2 ++ labelClose ++ r6, ⟨⟨?_, ?_⟩, ?_⟩, w2, labelClose ++ r6,
      ⟨List.append_assoc _ _ _, hw2⟩, r6, rfl, rfl, rfl, rfl⟩
    · rw [hs]; simp [List.append_assoc]
    · simp [List.append_assoc]
    · intro c hc
      simpa using hq c hc
    · simpa using hg1
    · simp [List.append_assoc]
    · simp [List.append_assoc]
    · simp [List.append_assoc]
    · intro c hc
      simpa using hlt c hc
    · simpa using hg2

theorem split_unique (q : Char) (t1 t2 r1 r2 : List Char)
    (h : t1 ++ q :: r1 = t2 ++ q :: r2) (h1 : ∀ c ∈ t1, c ≠ q) (h2 : ∀ c ∈ t2, c ≠ q) :
    t1 = t2 ∧ r1 = r2 := by
  induction t1 generalizing t2 with
  | nil =>
    cases t2 with
    | nil => exact ⟨rfl, by simpa using h⟩
    | cons d t2 =>
      have hd : q = d := by simpa using (List.cons.inj h).1
      exact absurd hd.symm (h2 d (List.mem_cons_self _ _))
  | cons c t1 ih =>
    cases t2 with
    | nil =>
      have hc : c = q := by simpa using (List.cons.inj h).1
      exact absurd hc (h1 c (List.mem_cons_self _ _))
    | cons d t2 =>
      obtain ⟨hcd, htl⟩ := List.cons.inj h
      obtain ⟨e1, e2⟩ := ih t2 htl (fun x hx => h1 x (List.mem_cons_of_mem _ hx))
        (fun x hx => h2 x (List.mem_cons_of_mem _ hx))
      exact ⟨by rw [hcd, e1], e2⟩

theorem dropWhile_space_append (w x : List Char) (hw : ∀ c ∈ w, isJsSpace c = true) :
    (w ++ x).dropWhile isJsSpace = x.dropWhile isJsSpace := by
  induction w with
  | nil => rfl
  | cons c w ih =>
    have hc : isJsSpace c = true := hw c (List.mem_cons_self _ _)
    rw [List.cons_append, List.dropWhile_cons_of_pos hc]
    exact ih (fun x hx => hw x (List.mem_cons_of_mem _ hx))

theorem dropWhile_space_all (w : List Char) (hw : ∀ c ∈ w, isJsSpace c = true) :
    w.dropWhile isJsSpace = [] := by
  have := dropWhile_space_append w [] hw
  simpa using this

/-- Removing trailing whitespace, the second half of `trim()`. -/
theorem trimEnd_append_space (x w : List Char) (hw : ∀ c ∈ w, isJsSpace c = true) :
    ((x ++ w).reverse.dropWhile isJsSpace).reverse = (x.reverse.dropWhile isJsSpace).reverse := by
  rw [List.reverse_append, dropWhile_space_append w.reverse x.reverse]
  intro c hc
  exact hw c (List.mem_reverse.mp hc)

/-- Whitespace around a text does not change what `trim()` returns. -/
theorem jsTrim_pad (w1 g w2 : List Char) (h1 : ∀ c ∈ w1, isJsSpace c = true)
    (h2 : ∀ c ∈ w2, isJsSpace c = true) : jsTrim (w1 ++ g ++ w2) = jsTrim g := by
  unfold jsTrim
  rw [List.append_assoc, dropWhile_space_append w1 _ h1]
  induction g with
  | nil =>
    rw [List.nil_append, dropWhile_space_all w2 h2]
    rfl
  | cons c g ih =>
    by_cases hc : isJsSpace c = true
    · rw [List.cons_append, List.dropWhile_cons_of_pos hc, List.dropWhile_cons_of_pos hc]
      exact ih
    · rw [List.cons_append, List.dropWhile_cons_of_neg hc, List.dropWhile_cons_of_neg hc,
        ← List.cons_append]
      exact trimEnd_append_space _ _ h2

theorem labelMid_eq : labelMid = [Char.ofNat 34, '>'] := by decide

theorem labelClose_eq : labelClose = '<' :: ['/', 'l', 'a', 'b', 'e', 'l', '>'] := by decide

theorem labelOpen_ne_nil : labelOpen ≠ [] := by decide

theorem space_ne_lt (c : Char) (h : isJsSpace c = true) : c ≠ '<' := by
  intro hc
  rw [hc] at h
  exact absurd h (by decide)

/-- Every match at the head of a text that starts with an occurrence of the pattern captures
its TOKEN, a group whose trimmed text is the trimmed LABEL, and ends where it ends. -/
theorem matchHere_of_markup (token label rest g1 g2 r6 : List Char)
    (ht : ValidToken token) (hl : ValidLabel label)
    (hm : (g1, g2, r6) ∈ matchHere (labelMarkup token label ++ rest)) :
    g1 = token ∧ jsTrim g2 = jsTrim label ∧ r6 = rest := by
  obtain ⟨w1, w2, hs, _, hq, hw1, _, hlt, hw2⟩ := (mem_matchHere _ _ _ _).mp hm
  unfold labelMarkup at hs
  simp only [List.append_assoc] at hs
  have hs1 := List.append_cancel_left hs
  rw [labelMid_eq] at hs1
  simp only [List.cons_append, List.nil_append] at hs1
  obtain ⟨e1, e2⟩ := split_unique (Char.ofNat 34) token g1 _ _ hs1 ht.2 hq
  have e3 := (List.cons.inj e2).2
  rw [labelClose_eq] at e3
  simp only [List.cons_append] at e3
  have hmid : ∀ c ∈ w1 ++ (g2 ++ w2), c ≠ '<' := by
    intro c hc
    rcases List.mem_append.mp hc with h | h
    · exact space_ne_lt c (hw1 c h)
    · rcases List.mem_append.mp h with h | h
      · exact hlt c h
      · exact space_ne_lt c (hw2 c h)
  have e4 : label ++ '<' :: (['/', 'l', 'a', 'b', 'e', 'l', '>'] ++ rest)
      = (w1 ++ (g2 ++ w2)) ++ '<' :: (['/', 'l', 'a', 'b', 'e', 'l', '>'] ++ r6) := by
    simpa [List.append_assoc] using e3
  obtain ⟨e5, e6⟩ := split_unique '<' label _ _ _ e4 hl.2 hmid
  refine ⟨e1.symm, ?_, ?_⟩
  · rw [e5, ← List.append_assoc]
    exact (jsTrim_pad w1 g2 w2 hw1 hw2).symm
  · exact (List.append_cancel_left e6).symm

theorem occursAtHead_iff (s : List Char) : OccursAtHead s ↔ matchHere s ≠ [] := by
  constructor
  · rintro ⟨token, label, rest, ht, hl, rfl⟩
    have hmem : (token, label, rest) ∈ matchHere (labelMarkup token label ++ rest) := by
      rw [mem_matchHere]
      refine ⟨[], [], ?_, ht.1, ht.2, ?_, hl.1, hl.2, ?_⟩
      · simp [labelMarkup, List.append_assoc]
      · intro c hc; exact absurd hc (List.not_mem_nil c)
      · intro c hc; exact absurd hc (List.not_mem_nil c)
    exact List.ne_nil_of_mem hmem
  · intro h
    obtain ⟨⟨g1, g2, r6⟩, hm⟩ := List.exists_mem_of_ne_nil _ h
    obtain ⟨w1, w2, hs, hg1, hq, hw1, hg2, hlt, hw2⟩ := (mem_matchHere _ _ _ _).mp hm
    refine ⟨g1, w1 ++ g2 ++ w2, r6, ⟨hg1, hq⟩, ⟨?_, ?_⟩, ?_⟩
    · simp [hg2]
    · intro c hc
      rcases List.mem_append.mp hc with h1 | h1
      · rcases List.mem_append.mp h1 with h1 | h1
        · exact space_ne_lt c (hw1 c h1)
        · exact hlt c h1
      · exact space_ne_lt c (hw2 c h1)
    · rw [hs]; rfl

/-! ## Lemmas: the scanning loop -/

theorem regexExec_of_head (s : List Char) (m : List Char × List Char × List Char)
    (h : (matchHere s).head? = some m) : regexExec s = some m := by
  cases s with
  | nil => exact h
  | cons c cs =>
    unfold regexExec
    rw [h]

theorem regexExec_skip (c : Char) (s : List Char) (h : ¬ OccursAtHead (c :: s)) :
    regexExec (c :: s) = regexExec s := by
  have hnil : matchHere (c :: s) = [] := by
    by_contra hne
    exact h ((occursAtHead_iff _).mpr hne)
  rw [regexExec, hnil]
  rfl

theorem regexExec_take (token label rest : List Char) (ht : ValidToken token)
    (hl : ValidLabel label) :
    ∃ g2, regexExec (labelMarkup token label ++ rest) = some (token, g2, rest) ∧
      jsTrim g2 = jsTrim label := by
  have hne : matchHere (labelMarkup token label ++ rest) ≠ [] :=
    (occursAtHead_iff _).mp ⟨token, label, rest, ht, hl, rfl⟩
  cases hm : matchHere (labelMarkup token label ++ rest) with
  | nil => exact absurd hm hne
  | cons m ms =>
    obtain ⟨g1, g2, r6⟩ := m
    have hmem : (g1, g2, r6) ∈ matchHere (labelMarkup token label ++ rest) := by
      rw [hm]; exact List.mem_cons_self _ _
    obtain ⟨e1, e2, e3⟩ := matchHere_of_markup token label rest g1 g2 r6 ht hl hmem
    refine ⟨g2, ?_, e2⟩
    rw [regexExec_of_head _ (g1, g2, r6) (by rw [hm]; rfl), e1, e3]

theorem extractLoop_skip (lib : MomentLib) (cfg : Config) (fuel : Nat) (c : Char)
    (s : List Char) (h : ¬ OccursAtHead (c :: s)) :
    extractLoop lib cfg fuel (c :: s) = extractLoop lib cfg fuel s := by
  cases fuel with
  | zero => rfl
  | succ n =>
    unfold extractLoop
    rw [regexExec_skip c s h]

/-- With more iterations allowed than there are occurrences, the loop returns the candidate
of each occurrence, in document order. -/
theorem extractLoop_of_occurrences (lib : MomentLib) (cfg : Config) (s : List Char)
    (l : List (List Char × List Char)) (h : Occurrences s l) :
    ∀ fuel, l.length < fuel → extractLoop lib cfg fuel s = l.map (candidateOf lib cfg) := by
  induction h with
  | done =>
    intro fuel _
    cases fuel with
    | zero => rfl
    | succ n => rfl
  | skip c s l hno _ ih =>
    intro fuel hf
    rw [extractLoop_skip lib cfg fuel c s hno]
    exact ih fuel hf
  | take token label rest l ht hl _ ih =>
    intro fuel hf
    cases fuel with
    | zero => exact absurd hf (Nat.not_lt_zero _)
    | succ n =>
      obtain ⟨g2, hexec, htrim⟩ := regexExec_take token label rest ht hl
      unfold extractLoop
      rw [hexec]
      simp only [List.map_cons]
      rw [ih n (by simpa using hf)]
      unfold candidateOf parseAppointmentDate
      rw [htrim]

theorem labelMarkup_length (token label : List Char) :
    0 < (labelMarkup token label).length := by
  unfold labelMarkup
  have : 0 < labelOpen.length := by decide
  simp only [List.length_append]
  omega

theorem occurrences_length_le (s : List Char) (l : List (List Char × List Char))
    (h : Occurrences s l) : l.length ≤ s.length := by
  induction h with
  | done => exact Nat.le_refl _
  | skip c s l _ _ ih =>
    simp only [List.length_cons]
    omega
  | take token label rest l _ _ _ ih =>
    have := labelMarkup_length token label
    simp only [List.length_cons, List.length_append]
    omega

theorem occurrences_bounded (n : Nat) :
    ∀ s : List Char, s.length ≤ n → ∃ l, Occurrences s l := by
  induction n with
  | zero =>
    intro s hs
    have : s = [] := List.length_eq_zero.mp (Nat.le_zero.mp hs)
    subst this
    exact ⟨[], Occurrences.done⟩
  | succ n ih =>
    intro s hs
    by_cases hocc : OccursAtHead s
    · obtain ⟨token, label, rest, ht, hl, rfl⟩ := hocc
      have hlen := labelMarkup_length token label
      obtain ⟨l, hl2⟩ := ih rest (by
        rw [List.length_append] at hs; omega)
      exact ⟨_, Occurrences.take token label rest l ht hl hl2⟩
    · cases s with
      | nil => exact ⟨[], Occurrences.done⟩
      | cons c cs =>
        obtain ⟨l, hl2⟩ := ih cs (by simpa using hs)
        exact ⟨l, Occurrences.skip c cs l hocc hl2⟩

/-- Every document has a reading into occurrences. -/
theorem occurrences_total (s : List Char) : ∃ l, Occurrences s l :=
  occurrences_bounded s.length s (Nat.le_refl _)

/-- The number of iterations `extractAppointments` allows is never the limit: any larger
number gives the same result. -/
theorem extractLoop_fuel (lib : MomentLib) (cfg : Config) (s : List Char) (fuel : Nat)
    (h : s.length < fuel) :
    extractLoop lib cfg fuel s = extractLoop lib cfg (s.length + 1) s := by
  obtain ⟨l, hl⟩ := occurrences_total s
  have hlen := occurrences_length_le s l hl
  rw [extractLoop_of_occurrences lib cfg s l hl fuel (by omega),
    extractLoop_of_occurrences lib cfg s l hl (s.length + 1) (by omega)]

/-- The parser returns the candidate of each occurrence, in document order. -/
theorem extractAppointments_of_occurrences (lib : MomentLib) (cfg : Config) (html : String)
    (l : List (List Char × List Char)) (hl : Occurrences html.data l) :
    extractAppointments lib cfg html = l.map (candidateOf lib cfg) := by
  have hlen := occurrences_length_le html.data l hl
  unfold extractAppointments
  apply extractLoop_of_occurrences lib cfg html.data l hl
  have : html.length = html.data.length := rfl
  omega

/-! ## C6: what the parser returns -/

/-- C6: every document has a reading into non-overlapping occurrences of
`<label for="scheduler_TOKEN">LABEL</label>` (TOKEN a non-empty attribute value, LABEL a
non-empty text), and for every such reading `extractAppointments` returns exactly one
candidate per occurrence, in document order, with `originalString` the TOKEN, `time` the
LABEL trimmed, and `fullDate` the TOKEN parsed under `M/D/YYYY h:mm:ss A` in the configured
timezone; a document without occurrence gives the empty array. -/
theorem extractAppointments_eq_occurrences (lib : MomentLib) (cfg : Config) (html : String) :
    (∃ l, Occurrences html.data l) ∧
    (∀ l, Occurrences html.data l →
      extractAppointments lib cfg html = l.map fun occ =>
        { fullDate :=
            { ms := lib.parse ["M/D/YYYY h:mm:ss A"] (String.mk occ.1) (.str cfg.TIMEZONE),
              zone := .str cfg.TIMEZONE },
          time := String.mk (jsTrim occ.2),
          originalString := String.mk occ.1 }) ∧
    (Occurrences html.data [] → extractAppointments lib cfg html = []) := by
  refine ⟨occurrences_total html.data, ?_, ?_⟩
  · intro l hl
    exact extractAppointments_of_occurrences lib cfg html l hl
  · intro hl
    exact extractAppointments_of_occurrences lib cfg html [] hl

/-- C6 on `latePage`, which is one occurrence of the pattern and nothing else. -/
theorem extractAppointments_eq_occurrences_witness :
    extractAppointments refLib sampleCfg latePage = [januarySlot] :=
  (extractAppointments_eq_occurrences refLib sampleCfg latePage).2.1
    [("1/15/2026 8:15:00 AM".data, "8:15 AM".data)]
    (Occurrences.take "1/15/2026 8:15:00 AM".data "8:15 AM".data [] []
      ⟨by decide, by decide⟩ ⟨by decide, by decide⟩ Occurrences.done)

/-! ## C7: a token that does not parse -/

/-- The parser keeps a matched label whose token does not parse: it returns one candidate
per occurrence of the pattern whatever the tokens are, and the candidate of a token that
does not parse under `M/D/YYYY h:mm:ss A` is in the returned array, with an invalid date. -/
theorem extractAppointments_keeps_unparsed (lib : MomentLib) (cfg : Config) (html : String)
    (l : List (List Char × List Char)) (hl : Occurrences html.data l) :
    (extractAppointments lib cfg html).length = l.length ∧
    ∀ occ ∈ l,
      lib.parse ["M/D/YYYY h:mm:ss A"] (String.mk occ.1) (.str cfg.TIMEZONE) = none →
      ∃ c ∈ extractAppointments lib cfg html,
        c.originalString = String.mk occ.1 ∧ c.fullDate.isValid = false := by
  rw [extractAppointments_of_occurrences lib cfg html l hl]
  refine ⟨List.length_map _ _, ?_⟩
  intro occ hocc hparse
  refine ⟨candidateOf lib cfg occ, List.mem_map_of_mem _ hocc, rfl, ?_⟩
  unfold candidateOf Moment.isValid
  simp only [hparse]
  rfl

set_option maxRecDepth 100000 in
/-- C7, the code at the failing input: on `mixedPage` (labels for 1 December, for the token
`soon`, and for 25 September, in that order) the parser returns the candidate of `soon`
with an invalid date, between the two others: it is neither dropped nor does the run fail.
The comparator gives `NaN` against it, the sort leaves the array as it is, and against the
reference 2025-12-31 the check announces 1 December as the earlier slot although
25 September is listed. On `oddPage`, where `soon` is the only label, the check sends the
informational message with `Invalid date` as the date of the earliest slot. -/
theorem checkAppointments_compares_invalid_candidate :
    extractAppointments refLib sampleCfg mixedPage = [decemberSlot, oddSlot, septemberSlot] ∧
    oddSlot.fullDate.isValid = false ∧
    jsSort compareByDate (extractAppointments refLib sampleCfg mixedPage)
      = [decemberSlot, oddSlot, septemberSlot] ∧
    septemberSlot.instant < decemberSlot.instant ∧
    (checkAppointments refLib sampleCfg mixedEnv sampleState).trace =
      [ Effect.httpPost,
        Effect.chatSend 1 (foundMessage refLib decemberSlot),
        Effect.mailSend "Earlier Appointment Found!" (foundMessage refLib decemberSlot),
        Effect.pushSend "Earlier Appointment Found!" (foundPushBody refLib decemberSlot) ] ∧
    extractAppointments refLib sampleCfg oddPage = [oddSlot] ∧
    (checkAppointments refLib sampleCfg oddEnv sampleState).trace =
      [Effect.httpPost, Effect.chatSend 1 (infoMessage refLib sampleRef oddSlot)] ∧
    oddSlot.fullDate.format refLib "dddd, MMMM Do, YYYY" = "Invalid date" := by
  refine ⟨by decide, by decide, by decide, by decide, by decide, by decide, by decide,
    by decide⟩

/-! ## Lemmas: loading a record -/

theorem loadAppointment_record (lib : MomentLib) (cfg : Config) (env : Env)
    (data : List (String × JVal)) (hread : env.readFile = none) :
    (loadAppointment lib cfg env { file := some (.json (.record data)) }).result
      = .ok (loadedRecord lib cfg env data) := by
  unfold loadAppointment loadedRecord
  simp only [hread, Run.call]
  cases ht : (getField data "fullDate").truthy with
  | false => simp [Run.andThen, Run.tryCatch, Run.pure_result]
  | true =>
    cases hp : lib.parseAuto (getField data "fullDate")
        ((getField data "timezone").or (.str cfg.TIMEZONE)) with
    | error e => simp [Run.andThen, Run.tryCatch, Run.pure_result, Run.throw]
    | ok ms =>
      cases ms with
      | none => simp [Run.andThen, Run.tryCatch, Run.pure_result, Moment.isValid]
      | some t => simp [Run.andThen, Run.tryCatch, Run.pure_result, Moment.isValid]

theorem loadedRecord_valid (lib : MomentLib) (cfg : Config) (env : Env)
    (data : List (String × JVal)) (a : Appointment)
    (h : loadedRecord lib cfg env data = some a) : a.fullDate.isValid = true := by
  unfold loadedRecord at h
  split at h
  · simp at h
  · split at h
    · simp at h
    · rename_i ms hp
      split at h
      · simp at h
      · rename_i hv
        have := Option.some.inj h
        rw [← this]
        simpa using hv

/-! ## C11: an empty body and a body without candidates -/

/-- C11 (amended): for a call that passes both guards and receives a response, a falsy
`response.data` (the empty body, and also the bodies `null`, `false` and `0`, which axios
decodes) takes the error path: the call returns `false` after attempting the diagnostic
message on the chat channel, once if it is ready. Every other body in whose text the parser
finds no candidate ends the call with `false` and no external call other than the HTTP
request: no send on any channel, no error message. -/
theorem checkAppointments_empty_body_vs_no_candidates (lib : MomentLib) (cfg : Config)
    (env : Env) (st : State) (ref : Appointment) (status : Nat) (statusText : String)
    (data : ResponseData)
    (hrun : st.isRunning = false) (href : st.currentAppointment = some ref)
    (hfetch : env.httpPost = .response status statusText data) :
    (data.truthy = false →
      (checkAppointments lib cfg env st).result = .ok false ∧
      (checkAppointments lib cfg env st).trace =
        Effect.httpPost :: chatTrace cfg st diagnosticMessage) ∧
    (data.truthy = true → extractAppointments lib cfg data.toText = [] →
      (checkAppointments lib cfg env st).result = .ok false ∧
      (checkAppointments lib cfg env st).trace = [Effect.httpPost]) ∧
    (data.truthy = false ↔
      data = .text "" ∨ data = .null ∨ data = .bool false ∨ data = .number 0) := by
  refine ⟨?_, ?_, ?_⟩
  · intro hfalsy
    have hf : (fetchResponse env).result =
        .error ⟨requestErrorMessage false none none false "Empty response from server"⟩ := by
      rw [fetchResponse_result, hfetch]
      simp [hfalsy]
    obtain ⟨h1, h2, _⟩ := checkAppointments_fetch_error lib cfg env st ref _ hrun href hf
    exact ⟨h1, h2⟩
  · intro hdata hnone
    obtain ⟨h1, h2, _⟩ := checkAppointments_response lib cfg env st ref status statusText
      data hrun href hfetch hdata
    rw [hnone] at h1 h2
    rw [(decideAndNotify_nil lib cfg env _ ref).1] at h1
    rw [(decideAndNotify_nil lib cfg env _ ref).2] at h2
    exact ⟨h1, h2⟩
  · cases data with
    | text s => simp [ResponseData.truthy]
    | null => simp [ResponseData.truthy]
    | bool b => cases b <;> simp [ResponseData.truthy]
    | number n => simp [ResponseData.truthy]
    | compound shown => simp [ResponseData.truthy]

/-- C11 (amended) at the sample state: an empty body leads to the diagnostic message, the
page `<html></html>` to no message at all. -/
theorem checkAppointments_empty_body_vs_no_candidates_witness :
    (checkAppointments refLib sampleCfg emptyBodyEnv sampleState).trace =
      [Effect.httpPost, Effect.chatSend 1 diagnosticMessage] ∧
    (checkAppointments refLib sampleCfg quietEnv sampleState).trace = [Effect.httpPost] :=
  ⟨((checkAppointments_empty_body_vs_no_candidates refLib sampleCfg emptyBodyEnv sampleState
      sampleRef 200 "OK" (.text "") rfl rfl rfl).1 rfl).2,
   ((checkAppointments_empty_body_vs_no_candidates refLib sampleCfg quietEnv sampleState
      sampleRef 200 "OK" (.text "<html></html>") rfl rfl rfl).2.1 rfl (by decide)).2⟩

/-- C11 as stated fails: the body `null` is not empty (four characters, in which the parser
finds no candidate), and the call takes the error path: it attempts the diagnostic message
on the chat channel. -/
theorem checkAppointments_null_body_counterexample :
    nullBodyEnv.httpPost = .response 200 "OK" .null ∧
    ResponseData.null.toText = "null" ∧
    extractAppointments refLib sampleCfg "null" = [] ∧
    (checkAppointments refLib sampleCfg nullBodyEnv sampleState).result = .ok false ∧
    (checkAppointments refLib sampleCfg nullBodyEnv sampleState).trace =
      [Effect.httpPost, Effect.chatSend 1 diagnosticMessage] := by
  refine ⟨rfl, rfl, by decide, rfl, by decide⟩

/-! ## C13: loading is fail-soft and validating -/

/-- C13: `loadAppointment` never raises, whatever the storage state; it returns `null`
when the file is absent, when it cannot be read, when it is not valid JSON, when the parsed
value has no (truthy) `fullDate`, and when the date does not parse (or the date library
throws on it); and an appointment it returns has a valid date. -/
theorem loadAppointment_fail_soft (lib : MomentLib) (cfg : Config) (env : Env) (disk : Disk) :
    (∃ r, (loadAppointment lib cfg env disk).result = .ok r) ∧
    (∀ a, (loadAppointment lib cfg env disk).result = .ok (some a) →
      a.fullDate.isValid = true) ∧
    (disk.file = none → (loadAppointment lib cfg env disk).result = .ok none) ∧
    (∀ e, env.readFile = some e → (loadAppointment lib cfg env disk).result = .ok none) ∧
    (disk.file = some .malformed → (loadAppointment lib cfg env disk).result = .ok none) ∧
    (∀ v, disk.file = some (.json (.atom v)) →
      (loadAppointment lib cfg env disk).result = .ok none) ∧
    (∀ data, disk.file = some (.json (.record data)) →
      (getField data "fullDate").truthy = false →
      (loadAppointment lib cfg env disk).result = .ok none) ∧
    (∀ data, disk.file = some (.json (.record data)) →
      (lib.parseAuto (getField data "fullDate")
          ((getField data "timezone").or (.str cfg.TIMEZONE)) = .ok none ∨
        ∃ e, lib.parseAuto (getField data "fullDate")
          ((getField data "timezone").or (.str cfg.TIMEZONE)) = .error e) →
      (loadAppointment lib cfg env disk).result = .ok none) := by
  obtain ⟨file⟩ := disk
  cases file with
  | none =>
    refine ⟨⟨none, rfl⟩, ?_, fun _ => rfl, fun _ _ => rfl, ?_, ?_, ?_, ?_⟩
    · intro a h
      exact absurd h (by simp [loadAppointment, Run.pure_result])
    · intro h; simp at h
    · intro v h; simp at h
    · intro data h; simp at h
    · intro data h; simp at h
  | some content =>
    cases hread : env.readFile with
    | some e =>
      have hres : (loadAppointment lib cfg env { file := some content }).result = .ok none := by
        simp [loadAppointment, hread, Run.call, Run.andThen, Run.tryCatch, Run.pure_result]
      refine ⟨⟨none, hres⟩, ?_, fun h => by simp at h, fun _ _ => hres, fun _ => hres,
        fun _ _ => hres, fun _ _ _ => hres, fun _ _ _ => hres⟩
      intro a h
      rw [hres] at h
      simp at h
    | none =>
      cases content with
      | malformed =>
        have hres : (loadAppointment lib cfg env { file := some .malformed }).result
            = .ok none := by
          simp [loadAppointment, hread, Run.call, Run.andThen, Run.tryCatch, Run.pure_result,
            Run.throw]
        refine ⟨⟨none, hres⟩, ?_, fun h => by simp at h, fun _ h => by simp at h,
          fun _ => hres, fun _ _ => hres, fun _ _ _ => hres, fun _ _ _ => hres⟩
        intro a h
        rw [hres] at h
        simp at h
      | json doc =>
        cases doc with
        | atom v =>
          have hres : (loadAppointment lib cfg env { file := some (.json (.atom v)) }).result
              = .ok none := by
            simp [loadAppointment, hread, Run.call, Run.andThen, Run.tryCatch,
              Run.pure_result]
          refine ⟨⟨none, hres⟩, ?_, fun h => by simp at h, fun _ h => by simp at h,
            fun _ => hres, fun _ _ => hres, fun _ _ _ => hres, fun _ _ _ => hres⟩
          intro a h
          rw [hres] at h
          simp at h
        | record data =>
          have hshape := loadAppointment_record lib cfg env data hread
          refine ⟨?_, ?_, fun h => by simp at h, fun _ h => by simp at h,
            fun h => by simp at h, fun _ h => by simp at h, ?_, ?_⟩
          · exact ⟨_, hshape⟩
          · intro a h
            rw [hshape] at h
            have h2 := Except.ok.inj h
            exact loadedRecord_valid lib cfg env data a h2
          · intro data2 hd htruthy
            have : data2 = data := by
              simp at hd
              exact hd.symm
            subst this
            rw [hshape]
            simp [loadedRecord, htruthy]
          · intro data2 hd hparse
            have : data2 = data := by
              simp at hd
              exact hd.symm
            subst this
            rw [hshape]
            rcases hparse with h | ⟨e, h⟩
            · unfold loadedRecord
              rw [h]
              simp [Moment.isValid]
            · unfold loadedRecord
              rw [h]
              simp

/-! ## C12: the defaults of the loader -/

/-- C12 (amended): for a persisted record whose date parses, `loadAppointment` (when the
file can be read) returns an appointment with that date; when the record lacks `time`, its
`time` is the text `00:00`; when the record lacks `timezone`, its timezone, and the zone of
its date, is the configured timezone. -/
theorem loadAppointment_defaults (lib : MomentLib) (cfg : Config) (env : Env)
    (data : List (String × JVal)) (t : Int)
    (hread : env.readFile = none)
    (hdate : (getField data "fullDate").truthy = true)
    (hparse : lib.parseAuto (getField data "fullDate")
      ((getField data "timezone").or (.str cfg.TIMEZONE)) = .ok (some t)) :
    ∃ a, (loadAppointment lib cfg env { file := some (.json (.record data)) }).result
        = .ok (some a) ∧
      a.fullDate.ms = some t ∧
      (getField data "time" = .undefined → a.time = .str "00:00") ∧
      (getField data "timezone" = .undefined →
        a.timezone = .str cfg.TIMEZONE ∧ a.fullDate.zone = .str cfg.TIMEZONE) := by
  rw [loadAppointment_record lib cfg env data hread]
  unfold loadedRecord
  rw [hparse]
  simp only [hdate, Moment.isValid, Option.isSome_some, Bool.not_true, Bool.false_eq_true,
    if_false]
  refine ⟨_, rfl, rfl, ?_, ?_⟩
  · intro h
    simp only [h]
    rfl
  · intro h
    simp only [h]
    exact ⟨rfl, rfl⟩

/-- C12 (amended) on a record that holds a date and nothing else. -/
theorem loadAppointment_defaults_witness :
    ∃ a, (loadAppointment refLib sampleCfg quietEnv
        { file := some (.json (.record legacyRecord)) }).result = .ok (some a) ∧
      a.fullDate.ms = some 1767128400000 ∧
      (getField legacyRecord "time" = .undefined → a.time = .str "00:00") ∧
      (getField legacyRecord "timezone" = .undefined →
        a.timezone = .str sampleCfg.TIMEZONE ∧ a.fullDate.zone = .str sampleCfg.TIMEZONE) :=
  loadAppointment_defaults refLib sampleCfg quietEnv legacyRecord 1767128400000 rfl
    (by decide) rfl

/-- C12 as stated fails: a record that holds only a date loads with `time` equal to
`00:00`, which is not the marker `23:59` that the `/set` handler assigns. -/
theorem loadAppointment_time_default_counterexample :
    ∃ a, (loadAppointment refLib sampleCfg quietEnv
        { file := some (.json (.record legacyRecord)) }).result = .ok (some a) ∧
      getField legacyRecord "time" = .undefined ∧
      a.time = .str "00:00" ∧
      a.time ≠ (buildReference refLib sampleCfg quietEnv a.fullDate "2025-12-31").time := by
  refine ⟨_, rfl, by decide, ?_, ?_⟩ <;> decide

/-! ## C19: which candidate is the earliest -/

/-- C19: for every non-empty candidate list with valid dates, the candidate `e` that the
decision step selects (the one whose label and date go into the notification it sends) has
the minimum instant of the list and is its first occurrence in document order: every
candidate before it in the list has a strictly later instant, every candidate after it an
instant that is not earlier. -/
theorem decideAndNotify_selects_first_minimum (lib : MomentLib) (cfg : Config) (env : Env)
    (st : State) (ref : Appointment) (cands : List Candidate)
    (hne : cands ≠ []) (hvalid : ∀ c ∈ cands, c.fullDate.isValid = true) :
    ∃ e pre post, cands = pre ++ e :: post ∧
      (∀ c ∈ pre, e.instant < c.instant) ∧ (∀ c ∈ post, e.instant ≤ c.instant) ∧
      (decideAndNotify lib cfg env st ref cands).trace =
        if (e.fullDate.clone.startOfDay lib).isBefore (ref.fullDate.clone.startOfDay lib) then
          chatTrace cfg st (foundMessage lib e) ++
          ((if cfg.enableEmail then
              [Effect.mailSend "Earlier Appointment Found!" (foundMessage lib e)] else []) ++
           (if cfg.enablePushbullet then
              [Effect.pushSend "Earlier Appointment Found!" (foundPushBody lib e)] else []))
        else chatTrace cfg st (infoMessage lib ref e) := by
  cases hs : jsSort compareByDate cands with
  | nil => exact absurd hs (jsSort_ne_nil _ _ hne)
  | cons e rest =>
    obtain ⟨pre, post, h1, h2, h3⟩ := jsSort_head_first_min cands hvalid e rest hs
    refine ⟨e, pre, post, h1, h2, h3, ?_⟩
    rw [(decideAndNotify_cons lib cfg env st ref cands e rest hs).2, sendMessage_trace,
      sendMessage_trace, sendEmailNotification_trace, sendPushNotification_trace]

/-- C19 on the sample candidates: the slot of 2025-09-25, second in the document, is
selected. -/
theorem decideAndNotify_selects_first_minimum_witness :
    ∃ e pre post, sampleCandidates = pre ++ e :: post ∧
      (∀ c ∈ pre, e.instant < c.instant) ∧ (∀ c ∈ post, e.instant ≤ c.instant) ∧
      (decideAndNotify refLib sampleCfg quietEnv sampleState sampleRef sampleCandidates).trace =
        if (e.fullDate.clone.startOfDay refLib).isBefore
            (sampleRef.fullDate.clone.startOfDay refLib) then
          chatTrace sampleCfg sampleState (foundMessage refLib e) ++
          ((if sampleCfg.enableEmail then
              [Effect.mailSend "Earlier Appointment Found!" (foundMessage refLib e)]
            else []) ++
           (if sampleCfg.enablePushbullet then
              [Effect.pushSend "Earlier Appointment Found!" (foundPushBody refLib e)]
            else []))
        else chatTrace sampleCfg sampleState (infoMessage refLib sampleRef e) :=
  decideAndNotify_selects_first_minimum refLib sampleCfg quietEnv sampleState sampleRef
    sampleCandidates (by decide) (by decide)

/-! ## C20: the zones of the comparison -/

/-- C20 (amended): for every reference with a valid date and every earliest candidate `e`
of a parsed page with a valid date, the comparison moves the candidate to the start of its
calendar day in the configured timezone and the reference to the start of its calendar day
in the reference's own timezone, and the check decides EarlierFound exactly when the first
instant is before the second. When the reference's timezone is the configured one (and the
date library satisfies the day laws there), this is exactly when the candidate's calendar
day is strictly before the reference's. -/
theorem compareAndNotify_true_iff_startOfDay_lt (lib : MomentLib) (cfg : Config) (env : Env)
    (st : State) (ref : Appointment) (html : String) (e : Candidate) (rest : List Candidate)
    (te r : Int)
    (hs : jsSort compareByDate (extractAppointments lib cfg html) = e :: rest)
    (hte : e.fullDate.ms = some te) (hr : ref.fullDate.ms = some r) :
    ((compareAndNotify lib cfg env st ref html).result = .ok true ↔
      lib.startOfDay (.str cfg.TIMEZONE) te < lib.startOfDay ref.fullDate.zone r) ∧
    (ref.fullDate.zone = .str cfg.TIMEZONE → lib.DayLaws (.str cfg.TIMEZONE) →
      ((compareAndNotify lib cfg env st ref html).result = .ok true ↔
        lib.dayOf (.str cfg.TIMEZONE) te < lib.dayOf (.str cfg.TIMEZONE) r)) := by
  have hmem : e ∈ extractAppointments lib cfg html := by
    rw [← jsSort_mem compareByDate, hs]
    exact List.mem_cons_self _ _
  have hz := extractAppointments_zone lib cfg html e hmem
  have key : (compareAndNotify lib cfg env st ref html).result = .ok true ↔
      lib.startOfDay (.str cfg.TIMEZONE) te < lib.startOfDay ref.fullDate.zone r := by
    unfold compareAndNotify
    rw [(decideAndNotify_cons lib cfg env st ref _ e rest hs).1, isBefore_startOfDay, hte, hr,
      hz]
    simp only [Except.ok.injEq, decide_eq_true_eq]
  refine ⟨key, ?_⟩
  intro hzone hlaws
  rw [key, hzone]
  exact startOfDay_lt_iff lib _ hlaws te r

set_option maxRecDepth 100000 in
/-- C20 (amended) on `latePage` against the sample reference: not earlier. -/
theorem compareAndNotify_true_iff_startOfDay_lt_witness :
    ¬ (compareAndNotify refLib sampleCfg quietEnv sampleState sampleRef latePage).result
      = .ok true := by
  rw [(compareAndNotify_true_iff_startOfDay_lt refLib sampleCfg quietEnv sampleState sampleRef
    latePage januarySlot [] 1768454100000 1767128400000 (by decide) (by decide)
    (by decide)).1]
  decide

set_option maxRecDepth 100000 in
/-- C20 as stated fails: with the configured timezone `America/Bogota` and a reference
loaded from a record saved under `Asia/Tokyo` (2025-12-31 there), a slot at 16:00 UTC on
2025-12-30 falls on 2025-12-31 in the reference's timezone, the reference's own day, and
the check still decides EarlierFound, because the slot is truncated to its day in
`America/Bogota`. -/
theorem compareAndNotify_zone_counterexample :
    (loadAppointment refLib bogotaCfg quietEnv
      { file := some (.json (.record tokyoRecord)) }).result = .ok (some tokyoLoaded) ∧
    extractAppointments refLib bogotaCfg bogotaPage = [bogotaSlot] ∧
    refLib.dayOf tokyoLoaded.fullDate.zone 1767110400000
      = refLib.dayOf tokyoLoaded.fullDate.zone 1767106800000 ∧
    (checkAppointments refLib bogotaCfg bogotaEnv tokyoState).result = .ok true ∧
    (checkAppointments refLib bogotaCfg bogotaEnv tokyoState).trace.take 2 =
      [Effect.httpPost, Effect.chatSend 1 (foundMessage refLib bogotaSlot)] := by
  refine ⟨rfl, by decide, by decide, rfl, by decide⟩

/-! ## C18: the `/set` command -/

theorem saveAppointment_returns (lib : MomentLib) (cfg : Config) (env : Env) (disk : Disk)
    (appt : Appointment) :
    ∃ b, (saveAppointment lib cfg env disk (some appt)).1.result = .ok b := by
  unfold saveAppointment
  cases hm : env.mkdir with
  | some e => exact ⟨false, by simp [hm, Run.call, Run.andThen, Run.tryCatch, Run.pure_result]⟩
  | none =>
    cases hw : env.writeFile with
    | some e =>
      exact ⟨false, by simp [hm, hw, Run.call, Run.andThen, Run.tryCatch, Run.pure_result]⟩
    | none =>
      exact ⟨true, by simp [hm, hw, Run.call, Run.andThen, Run.tryCatch, Run.pure_result]⟩

/-- C18 (amended): for every `/set` command from the configured chat. If the trimmed date
text parses under the accepted formats, the handler builds the reference `appt` at the start
of that day in the configured timezone, makes it the reference in `state`, and calls
`saveAppointment` with it (its calls on the appointment file come first and the file is
what that call leaves); if the save returns `true` it then calls `checkAppointments`
exactly once, on the state holding the new reference, and if the save returns `false` it
calls `checkAppointments` not at all. If the date text does not parse, `state` and the
appointment file are unchanged and no check is made. -/
theorem handleSet_valid_and_invalid (lib : MomentLib) (cfg : Config) (env : Env) (st : State)
    (disk : Disk) (captured : String) :
    (∀ t appt,
      lib.parse setFormats (String.mk (jsTrim captured.data)) (.str cfg.TIMEZONE) = some t →
      appt = buildReference lib cfg env { ms := some t, zone := .str cfg.TIMEZONE }
        (String.mk (jsTrim captured.data)) →
      appt.fullDate =
        { ms := some (lib.startOfDay (.str cfg.TIMEZONE) t), zone := .str cfg.TIMEZONE } ∧
      (handleSet lib cfg env st disk cfg.CHAT_ID captured).disk =
        (saveAppointment lib cfg env disk (some appt)).2 ∧
      (∃ rest, (handleSet lib cfg env st disk cfg.CHAT_ID captured).trace =
        (saveAppointment lib cfg env disk (some appt)).1.trace ++ rest) ∧
      ((saveAppointment lib cfg env disk (some appt)).1.result = .ok true →
        (handleSet lib cfg env st disk cfg.CHAT_ID captured).checks =
          [checkAppointments lib cfg env { st with currentAppointment := some appt }]) ∧
      ((saveAppointment lib cfg env disk (some appt)).1.result = .ok false →
        (handleSet lib cfg env st disk cfg.CHAT_ID captured).checks = [] ∧
        (handleSet lib cfg env st disk cfg.CHAT_ID captured).state =
          { st with currentAppointment := some appt })) ∧
    (lib.parse setFormats (String.mk (jsTrim captured.data)) (.str cfg.TIMEZONE) = none →
      (handleSet lib cfg env st disk cfg.CHAT_ID captured).state = st ∧
      (handleSet lib cfg env st disk cfg.CHAT_ID captured).disk = disk ∧
      (handleSet lib cfg env st disk cfg.CHAT_ID captured).checks = []) := by
  constructor
  · intro t appt ht happt
    obtain ⟨b, hb⟩ := saveAppointment_returns lib cfg env disk appt
    refine ⟨by rw [happt]; rfl, ?_⟩
    unfold handleSet
    simp only [ne_eq, not_true_eq_false, if_false, ht, Moment.isValid, Option.isSome_some,
      Bool.not_true, Bool.false_eq_true]
    rw [← happt, hb]
    cases b with
    | true =>
      refine ⟨rfl, ⟨_, rfl⟩, fun _ => rfl, fun h => ?_⟩
      exact absurd (Except.ok.inj h) (by decide)
    | false =>
      refine ⟨rfl, ⟨_, rfl⟩, fun h => ?_, fun _ => ⟨rfl, rfl⟩⟩
      exact absurd (Except.ok.inj h) (by decide)
  · intro hnone
    unfold handleSet
    simp [hnone, Moment.isValid]

/-- C18 (amended) for `/set 2026-02-01` at the sample state with an empty store: the file
holds the new record afterwards and one check was made. -/
theorem handleSet_valid_and_invalid_witness :
    (handleSet refLib sampleCfg quietEnv sampleState emptyDisk sampleCfg.CHAT_ID
      " 2026-02-01 ").checks =
      [checkAppointments refLib sampleCfg quietEnv
        { sampleState with currentAppointment := some februaryReference }] :=
  ((handleSet_valid_and_invalid refLib sampleCfg quietEnv sampleState emptyDisk
    " 2026-02-01 ").1 1769893200000 februaryReference (by decide) rfl).2.2.2.1 rfl

/-- C18 as stated fails: from the sample state, `/set 2026-02-01` in a world where the
appointment file cannot be written is a valid date, the handler calls `saveAppointment`
(the write is attempted) and replaces the reference in `state`, and it triggers no check. -/
theorem handleSet_save_failure_counterexample :
    refLib.parse setFormats (String.mk (jsTrim " 2026-02-01 ".data)) (.str sampleCfg.TIMEZONE)
      = some 1769893200000 ∧
    (handleSet refLib sampleCfg diskFullEnv sampleState emptyDisk "42" " 2026-02-01 ").checks
      = [] ∧
    (handleSet refLib sampleCfg diskFullEnv sampleState emptyDisk "42"
      " 2026-02-01 ").trace.take 1 = [Effect.fileMkdir] ∧
    (handleSet refLib sampleCfg diskFullEnv sampleState emptyDisk "42"
      " 2026-02-01 ").state.currentAppointment ≠ sampleState.currentAppointment := by
  refine ⟨by decide, rfl, by decide, by decide⟩

/-! ## Lemmas: the connection supervisor -/

theorem initializeBot_in_flight (env : BotEnv) (sup : Supervisor) (retryCount : Nat)
    (hflag : sup.state.isBotInitializing = true) :
    initializeBot env sup retryCount = { value := sup.state.bot, sup := sup, trace := [] } := by
  rw [initializeBot, if_pos hflag]

theorem tryAttempt_probe_ok (env : BotEnv) (sup : Supervisor)
    (hc : env.construct sup.created = none) (hp : env.getMe sup.created = none) :
    tryAttempt env sup =
      { value := some sup.created,
        sup := { beginAttempt sup with
          state := { (beginAttempt sup).state with botInitialized := true } },
        trace := [.construct sup.created, .onPollingError sup.created, .getMe sup.created] } := by
  unfold tryAttempt
  rw [hc, hp]

theorem tryAttempt_probe_fails (env : BotEnv) (sup : Supervisor)
    (hc : env.construct sup.created = none) (hp : (env.getMe sup.created).isSome = true) :
    tryAttempt env sup =
      { value := none, sup := beginAttempt sup,
        trace := [.construct sup.created, .onPollingError sup.created, .getMe sup.created] } := by
  unfold tryAttempt
  rw [hc]
  cases hg : env.getMe sup.created with
  | none => rw [hg] at hp; exact absurd hp (by decide)
  | some e => rfl

/-- An attempt whose constructor returns and whose probe succeeds: the instance is returned,
it is in `state.bot`, the connection is marked ready, and the single-flight flag is still
set. -/
theorem initializeBot_probe_ok (env : BotEnv) (sup : Supervisor) (retryCount : Nat)
    (hflag : sup.state.isBotInitializing = false)
    (hc : env.construct sup.created = none) (hp : env.getMe sup.created = none) :
    initializeBot env sup retryCount =
      { value := some sup.created,
        sup := { sup with
          state := { sup.state with isBotInitializing := true, bot := some sup.created,
                                    botInitialized := true },
          created := sup.created + 1 },
        trace := [.construct sup.created, .onPollingError sup.created, .getMe sup.created] } := by
  rw [initializeBot, if_neg (by simp [hflag]), tryAttempt_probe_ok env sup hc hp]
  rfl

/-- When every constructor call returns and every probe is rejected, an attempt numbered
`retryCount` with `k` retries left after it gives up after `k + 1` constructions. -/
theorem initializeBot_all_fail (env : BotEnv)
    (hconstruct : ∀ n, env.construct n = none) (hprobe : ∀ n, (env.getMe n).isSome = true) :
    ∀ (k retryCount : Nat) (sup : Supervisor), retryCount + k = MAX_RETRIES - 1 →
      sup.state.isBotInitializing = false → sup.state.botInitialized = false →
      (initializeBot env sup retryCount).value = none ∧
      (initializeBot env sup retryCount).sup.state.bot = none ∧
      (initializeBot env sup retryCount).sup.state.isBotInitializing = false ∧
      (initializeBot env sup retryCount).sup.state.botInitialized = false ∧
      constructions (initializeBot env sup retryCount).trace = k + 1 ∧
      (initializeBot env sup retryCount).sup.created = sup.created + (k + 1) := by
  intro k
  induction k with
  | zero =>
    intro retryCount sup hk hflag hready
    have hlast : ¬ retryCount < MAX_RETRIES - 1 := by omega
    rw [initializeBot, if_neg (by simp [hflag]),
      tryAttempt_probe_fails env sup (hconstruct _) (hprobe _)]
    simp only [if_neg hlast]
    exact ⟨trivial, rfl, rfl, hready, rfl, rfl⟩
  | succ k ih =>
    intro retryCount sup hk hflag hready
    have hmore : retryCount < MAX_RETRIES - 1 := by omega
    obtain ⟨h1, h2, h3, h4, h5, h6⟩ := ih (retryCount + 1)
      { beginAttempt sup with state := (cleanupAttempt (beginAttempt sup).state).1 }
      (by omega) rfl hready
    rw [initializeBot, if_neg (by simp [hflag]),
      tryAttempt_probe_fails env sup (hconstruct _) (hprobe _)]
    simp only [if_pos hmore]
    refine ⟨h1, h2, h3, h4, ?_, ?_⟩
    · unfold constructions at h5 ⊢
      simp only [List.filter_append, List.length_append]
      rw [h5]
      simp [cleanupAttempt, beginAttempt, List.filter]
      omega
    · rw [h6]
      simp [beginAttempt]
      omega

theorem resetConnection_flags (st : State) :
    (resetConnection st).1.isBotInitializing = false ∧
    (resetConnection st).1.botInitialized = false ∧
    (resetConnection st).1.bot = none := by
  unfold resetConnection
  cases st.bot <;> exact ⟨rfl, rfl, rfl⟩

theorem resetConnection_no_construct (st : State) :
    constructions (resetConnection st).2 = 0 := by
  unfold resetConnection
  cases st.bot <;> rfl

/-- A reconnect whose first attempt succeeds, made when the handlers have been attached
before: the new instance becomes `state.bot`, the connection is marked ready, and the only
calls are the stop of the old transport (if any) and the three calls of the attempt. -/
theorem reconnectBot_attached (env : BotEnv) (sup : Supervisor)
    (hatt : sup.commandHandlersAttached = true)
    (hc : env.construct sup.created = none) (hp : env.getMe sup.created = none) :
    (reconnectBot env sup).sup.state.bot = some sup.created ∧
    (reconnectBot env sup).sup.state.botInitialized = true ∧
    (reconnectBot env sup).trace = (resetConnection sup.state).2 ++
      [.construct sup.created, .onPollingError sup.created, .getMe sup.created] := by
  have hinit := initializeBot_probe_ok env
    { sup with state := (resetConnection sup.state).1 } 0
    (resetConnection_flags sup.state).1 hc hp
  unfold reconnectBot
  simp only [hinit]
  simp [setupCommandHandlers, hatt]

/-- The first set-up when the first attempt succeeds: instance `created` is in `state.bot`
and each of the four command patterns is registered on it. -/
theorem setupBot_first_attempt (env : BotEnv) (sup : Supervisor)
    (hflag : sup.state.isBotInitializing = false)
    (hatt : sup.commandHandlersAttached = false)
    (hc : env.construct sup.created = none) (hp : env.getMe sup.created = none) :
    (setupBot env sup).sup =
      { state := { sup.state with isBotInitializing := true, bot := some sup.created,
                                  botInitialized := true },
        commandHandlersAttached := true, created := sup.created + 1 } ∧
    (setupBot env sup).trace =
      [.construct sup.created, .onPollingError sup.created, .getMe sup.created,
       .onText sup.created "\\/set (.+)", .onText sup.created "\\/check",
       .onText sup.created "\\/current", .onText sup.created "\\/start"] := by
  have hinit := initializeBot_probe_ok env sup 0 hflag hc hp
  unfold setupBot
  simp only [hinit]
  simp [setupCommandHandlers, hatt]

/-! ## C14: giving up after the last attempt -/

/-- C14: starting with the single-flight flag clear and the connection not marked ready,
if every constructor call returns and the liveness probe is rejected on every attempt, then
`initializeBot()` (a total function: it terminates) returns `null` after exactly
`MAX_RETRIES` = 5 constructor calls, and on return `state.bot` is `null`, the single-flight
flag is clear and the connection is not marked ready. -/
theorem initializeBot_gives_up (env : BotEnv) (sup : Supervisor)
    (hflag : sup.state.isBotInitializing = false)
    (hready : sup.state.botInitialized = false)
    (hconstruct : ∀ n, env.construct n = none)
    (hprobe : ∀ n, (env.getMe n).isSome = true) :
    (initializeBot env sup 0).value = none ∧
    (initializeBot env sup 0).sup.state.bot = none ∧
    (initializeBot env sup 0).sup.state.isBotInitializing = false ∧
    (initializeBot env sup 0).sup.state.botInitialized = false ∧
    constructions (initializeBot env sup 0).trace = 5 ∧
    (initializeBot env sup 0).sup.created = sup.created + 5 ∧
    MAX_RETRIES = 5 := by
  obtain ⟨h1, h2, h3, h4, h5, h6⟩ := initializeBot_all_fail env hconstruct hprobe 4 0 sup rfl
    hflag hready
  exact ⟨h1, h2, h3, h4, h5, h6, rfl⟩

/-- C14 from the state at process start, on a chat service that rejects every probe. -/
theorem initializeBot_gives_up_witness :
    (initializeBot unreachableBotEnv initialSupervisor 0).value = none ∧
    (initializeBot unreachableBotEnv initialSupervisor 0).sup.state.bot = none ∧
    constructions (initializeBot unreachableBotEnv initialSupervisor 0).trace = 5 :=
  have h := initializeBot_gives_up unreachableBotEnv initialSupervisor rfl rfl
    (fun _ => rfl) (fun _ => rfl)
  ⟨h.1, h.2.1, h.2.2.2.2.1⟩

/-! ## C15: a successful attempt -/

/-- C15, the code at the failing input: from the state at process start, on a chat service
whose probe succeeds, `initializeBot()` returns instance 0, `state.bot` is that instance and
the connection is marked ready, and `isBotInitializing` is still `true` on return: the
success path (lines 576 to 580) never clears the flag that line 544 set. -/
theorem initializeBot_success_keeps_flag :
    (initializeBot reachableBotEnv initialSupervisor 0).value = some 0 ∧
    (initializeBot reachableBotEnv initialSupervisor 0).sup.state.bot = some 0 ∧
    (initializeBot reachableBotEnv initialSupervisor 0).sup.state.botInitialized = true ∧
    (initializeBot reachableBotEnv initialSupervisor 0).sup.state.isBotInitializing = true := by
  rw [initializeBot_probe_ok reachableBotEnv initialSupervisor 0 rfl rfl rfl]
  exact ⟨rfl, rfl, rfl, rfl⟩

/-! ## C16: command handlers after a reconnect -/

/-- C16, the code at the failing input: on a chat service where every call succeeds, the
first set-up registers each of the four command patterns once on instance 0; a reconnect
then succeeds and makes instance 1 the current transport, marked ready; and over the whole
history no command pattern has been registered on instance 1, because
`commandHandlersAttached` is still `true` when `reconnectBot` calls
`setupCommandHandlers`. -/
theorem reconnectBot_leaves_new_transport_without_handlers :
    ["\\/set (.+)", "\\/check", "\\/current", "\\/start"].map
      (timesRegistered (setupBot reachableBotEnv initialSupervisor).trace 0) = [1, 1, 1, 1] ∧
    (reconnectBot reachableBotEnv
      (setupBot reachableBotEnv initialSupervisor).sup).sup.state.bot = some 1 ∧
    (reconnectBot reachableBotEnv
      (setupBot reachableBotEnv initialSupervisor).sup).sup.state.botInitialized = true ∧
    ["\\/set (.+)", "\\/check", "\\/current", "\\/start"].map
      (timesRegistered ((setupBot reachableBotEnv initialSupervisor).trace ++
        (reconnectBot reachableBotEnv
          (setupBot reachableBotEnv initialSupervisor).sup).trace) 1) = [0, 0, 0, 0] := by
  obtain ⟨hsup, htrace⟩ := setupBot_first_attempt reachableBotEnv initialSupervisor rfl rfl
    rfl rfl
  obtain ⟨h1, h2, h3⟩ := reconnectBot_attached reachableBotEnv
    (setupBot reachableBotEnv initialSupervisor).sup (by rw [hsup]) rfl rfl
  refine ⟨?_, h1.trans (by rw [hsup]; rfl), h2, ?_⟩
  · rw [htrace]
    decide
  · rw [h3, htrace, hsup]
    decide

/-! ## C17: a reconnect while an attempt is in flight -/

/-- C17, the code at the failing input: while the first attempt awaits its probe
(instance 0 in `state.bot`, single-flight flag set), a further `initializeBot()` makes no
call and changes nothing; but `reconnectBot()`, as scheduled by a fatal polling error, stops
the transport of the attempt in flight and constructs a second transport (instance 1), and
on a chat service that rejects every probe it constructs five more and returns with the
flag clear while the first attempt has not settled. -/
theorem reconnectBot_ignores_attempt_in_flight :
    probingSupervisor.state.isBotInitializing = true ∧
    initializeBot reachableBotEnv probingSupervisor 0 =
      { value := some 0, sup := probingSupervisor, trace := [] } ∧
    (reconnectBot reachableBotEnv probingSupervisor).trace =
      [.stopPolling 0, .construct 1, .onPollingError 1, .getMe 1,
       .onText 1 "\\/set (.+)", .onText 1 "\\/check", .onText 1 "\\/current",
       .onText 1 "\\/start"] ∧
    constructions (reconnectBot unreachableBotEnv probingSupervisor).trace = 5 ∧
    (reconnectBot unreachableBotEnv probingSupervisor).sup.state.isBotInitializing = false := by
  refine ⟨rfl, initializeBot_in_flight _ _ _ rfl, ?_, ?_, ?_⟩
  · have hinit := initializeBot_probe_ok reachableBotEnv
      { probingSupervisor with state := (resetConnection probingSupervisor.state).1 } 0
      rfl rfl rfl
    unfold reconnectBot
    simp only [hinit]
    rfl
  · obtain ⟨h1, _, _, _, h5, _⟩ := initializeBot_all_fail unreachableBotEnv (fun _ => rfl)
      (fun _ => rfl) 4 0
      { probingSupervisor with state := (resetConnection probingSupervisor.state).1 }
      rfl rfl rfl
    unfold reconnectBot
    simp only [h1]
    unfold constructions at h5 ⊢
    simp only [List.filter_append, List.length_append]
    rw [h5]
    rfl
  · obtain ⟨h1, _, h3, _, _, _⟩ := initializeBot_all_fail unreachableBotEnv (fun _ => rfl)
      (fun _ => rfl) 4 0
      { probingSupervisor with state := (resetConnection probingSupervisor.state).1 }
      rfl rfl rfl
    unfold reconnectBot
    simp only [h1]
    exact h3

end Watcher
